import Mathlib

/-!
Redis provider: a shallow embedding of the ACL user resource,
`redisprovider/resource_redis_user.go`, and of Create and Read of the string
resource, whose source file is not available and is modelled from the
specification.

* Go strings are modelled by `String`; every string primitive the resource uses
  (`strings.HasPrefix`, `strings.Contains`, `strings.SplitN`, slicing `s[1:]`
  after a one-byte ASCII prefix test, concatenation) is defined below on the
  character list of the string.
* The Redis server is an arbitrary deterministic state machine `Server σ`; the
  client handle `Client σ` carries the server state together with the trace of
  every command issued and of the result the client obtained for it.
* The declared state `*schema.ResourceData` is the record `ResourceData`.
* A Go runtime panic (slice index out of range, failed type assertion) is the
  result `none` of a `Run`, or of the function that panicked.
-/

namespace RedisProvider

/-! ## Go string primitives -/

/-- Go `strings.HasPrefix(s, pre)`. -/
def HasPrefix (s pre : String) : Bool :=
  pre.data.isPrefixOf s.data

/-- Go slice expression `s[n:]` (used by the source only with `n = 1`, right
after a test that the first byte is an ASCII character). -/
def sliceFrom (s : String) (n : Nat) : String :=
  ⟨s.data.drop n⟩

/-- Substring search on character lists, the worker of `Contains`. -/
def containsChars (sub : List Char) : List Char → Bool
  | [] => sub.isEmpty
  | c :: cs => sub.isPrefixOf (c :: cs) || containsChars sub cs

/-- Go `strings.Contains(s, substr)`. -/
def Contains (s substr : String) : Bool :=
  containsChars substr.data s.data

/-- Cut a character list at its first space: the text before it and the text
after it, or `none` when there is no space. -/
def cutAtSpace : List Char → Option (List Char × List Char)
  | [] => none
  | c :: cs =>
    if c = ' ' then some ([], cs)
    else
      match cutAtSpace cs with
      | none => none
      | some (a, b) => some (c :: a, b)

/-- Go `strings.SplitN(s, " ", 2)`: `[s]` when `s` has no space, otherwise the
two pieces around the first space. -/
def SplitN2 (s : String) : List String :=
  match cutAtSpace s.data with
  | none => [s]
  | some (a, b) => [⟨a⟩, ⟨b⟩]

/-! ## Redis replies, the server and the client handle -/

/-- The dynamically typed value (`interface{}`) held by a go-redis `Cmd`. -/
inductive Reply where
  | str (s : String)
  | int (n : Int)
  | nil
  | arr (xs : List Reply)

/-- Go `%T` of a reply value, as printed in the client's conversion errors. -/
def Reply.typeName : Reply → String
  | .str _ => "string"
  | .int _ => "int64"
  | .nil => "<nil>"
  | .arr _ => "[]interface \x7b\x7d"

/-- One round trip: the command sent and what the client got back for it
(`Cmd.Err()` or `Cmd.Val()`). -/
structure Exchange where
  cmd : List String
  result : Except String Reply

/-- The Redis server: any deterministic machine over a state type `σ`. -/
structure Server (σ : Type) where
  exec : σ → List String → Except String Reply × σ

/-- The client handle `cfg.RedisClient`: current server state and the trace of
round trips made so far, oldest first. -/
structure Client (σ : Type) where
  state : σ
  trace : List Exchange

/-- The client call `cfg.RedisClient.Do(ctx, args...)`: one round trip, recorded
in the trace. -/
def Client.Do {σ : Type} (srv : Server σ) (c : Client σ) (args : List String) :
    Except String Reply × Client σ :=
  let r := srv.exec c.state args
  (r.1, { state := r.2, trace := c.trace ++ [⟨args, r.1⟩] })

/-- The conversion `Cmd.Slice()` of go-redis applied to a reply value. -/
def Reply.Slice : Reply → Except String (List Reply)
  | .arr xs => .ok xs
  | v => .error ("redis: unexpected type=" ++ v.typeName ++ " for Slice")

/-- Element conversion of `Cmd.StringSlice()`: every element must be a string. -/
def toStrings : List Reply → Except String (List String)
  | [] => .ok []
  | .str s :: rest =>
    match toStrings rest with
    | .ok ss => .ok (s :: ss)
    | .error e => .error e
  | v :: _ => .error ("redis: unexpected type=" ++ v.typeName ++ " for String")

/-- The conversion `Cmd.StringSlice()` of go-redis on the result of a round
trip: the command error if there is one, else the reply as a list of strings. -/
def StringSlice (r : Except String Reply) : Except String (List String) :=
  match r with
  | .error e => .error e
  | .ok v =>
    match v.Slice with
    | .error e => .error e
    | .ok xs => toStrings xs

/-! ## Declared state and diagnostics -/

/-- The declared state `*schema.ResourceData` of a `redis_user`: the identity
`d.Id()` and the fields of the schema in `resourceRedisUser`. -/
structure ResourceData where
  id : String
  username : String
  password : String
  enabled : Bool
  keys : List String
  commands : List String
  channels : List String
  reset_keys : Bool
  reset_channels : Bool
  reset_commands : Bool
  acl_string : String
deriving DecidableEq, Repr

/-- Modelled from the spec: the SDK's `ResourceData.GetOk` on a boolean field,
whose `ok` result is false when the value is the type's zero value `false`. -/
def GetOkBool (v : Bool) : Bool × Bool :=
  (v, v != false)

/-- Modelled from the spec: the SDK's `ResourceData.GetOk` on a string field,
whose `ok` result is false when the value is the zero value `""`. -/
def GetOkString (v : String) : String × Bool :=
  (v, v != "")

/-- Modelled from the spec: the elements of a declared list of strings as the
SDK hands them over in a `[]interface{}`: a string, except that an element
declared as the empty string arrives as the nil interface value (`none`). -/
def listElems (v : List String) : List (Option String) :=
  v.map (fun s => if s = "" then none else some s)

/-- Modelled from the spec: the SDK's `ResourceData.GetOk` on a list field,
whose `ok` result is false when the value is the zero value, the empty list;
the value is the `[]interface{}` of the elements. -/
def GetOkList (v : List String) : List (Option String) × Bool :=
  (listElems v, !v.isEmpty)

/-- Severity of a diagnostic (`diag.Error`, `diag.Warning`). -/
inductive Severity where
  | Error
  | Warning
deriving DecidableEq, Repr

/-- One `diag.Diagnostic`: severity and summary. -/
structure Diagnostic where
  severity : Severity
  summary : String
deriving DecidableEq, Repr

/-- The value `diag.Diagnostics`; the empty list is Go's `nil` (success). -/
abbrev Diagnostics := List Diagnostic

/-- The constructor `diag.FromErr(err)`: one error diagnostic whose summary is
`err.Error()`. -/
def diag.FromErr (err : String) : Diagnostics :=
  [⟨.Error, err⟩]

/-- The constructor `diag.Errorf(...)`, applied to the formatted message. -/
def diag.Errorf (msg : String) : Diagnostics :=
  [⟨.Error, msg⟩]

/-- What one call of a resource operation leaves behind: the diagnostics it
returned (`none` when it did not return but panicked), the client handle and
the declared state. -/
structure Run (σ : Type) where
  result : Option Diagnostics
  client : Client σ
  data : ResourceData

/-- What a call of the importer leaves behind: its `([]*ResourceData, error)`
result and the client handle. -/
structure ImportRun (σ : Type) where
  result : Except String (List ResourceData)
  client : Client σ

/-- The round trips made between two moments of a client handle. -/
def issued {σ : Type} (before after : Client σ) : List Exchange :=
  after.trace.drop before.trace.length

/-! ## Building the `ACL SETUSER` command (`updateUserACL`, lines 279-361) -/

/-- The key-pattern token of `updateUserACL` (lines 320-326): add `~` unless
already present. -/
def keyToken (keyStr : String) : String :=
  if !HasPrefix keyStr "~" then "~" ++ keyStr else keyStr

/-- The command-rule token of `updateUserACL` (lines 333-346). -/
def commandToken (cmdStr : String) : String :=
  if HasPrefix cmdStr "@" then
    if !HasPrefix cmdStr "+@" && !HasPrefix cmdStr "-@" then
      "+@" ++ sliceFrom cmdStr 1
    else cmdStr
  else if !HasPrefix cmdStr "+" && !HasPrefix cmdStr "-" then
    "+" ++ cmdStr
  else cmdStr

/-- The channel-pattern token of `updateUserACL` (lines 353-359): add `&` unless
already present. -/
def channelToken (channelStr : String) : String :=
  if !HasPrefix channelStr "&" then "&" ++ channelStr else channelStr

/-- The three element loops of `updateUserACL` (lines 319-327, 332-347 and
352-360), `token` being the normalization of the loop: every element is
converted with the unchecked type assertion `x.(string)`, which panics on a nil
element (`none`: nothing of the list built so far is used), and its token is
appended to `args`. -/
def appendTokens (token : String → String) :
    List (Option String) → List String → Option (List String)
  | [], args => some args
  | none :: _, _ => none
  | some s :: rest, args => appendTokens token rest (args ++ [token s])

/-- The argument list `args` that `updateUserACL` has built when it reaches the
client call on line 364; `none` when one of the element loops panicked before
that line. -/
def setUserArgs (d : ResourceData) : Option (List String) :=
  let username := d.username
  let args := ["ACL", "SETUSER", username]
  let args :=
    if (GetOkBool d.enabled).2 then
      if (GetOkBool d.enabled).1 then args ++ ["on"] else args ++ ["off"]
    else args
  let args :=
    if (GetOkString d.password).2 then args ++ [">" ++ (GetOkString d.password).1]
    else args ++ ["nopass"]
  let args :=
    if (GetOkBool d.reset_keys).2 && (GetOkBool d.reset_keys).1 then args ++ ["resetkeys"]
    else args
  let args :=
    if (GetOkBool d.reset_channels).2 && (GetOkBool d.reset_channels).1 then
      args ++ ["resetchannels"]
    else args
  let args :=
    if (GetOkBool d.reset_commands).2 && (GetOkBool d.reset_commands).1 then
      args ++ ["resetcommands"]
    else args
  match (if (GetOkList d.keys).2 then appendTokens keyToken (GetOkList d.keys).1 args
         else some args) with
  | none => none
  | some args =>
    match (if (GetOkList d.commands).2 then
             appendTokens commandToken (GetOkList d.commands).1 args
           else some args) with
    | none => none
    | some args =>
      if (GetOkList d.channels).2 then appendTokens channelToken (GetOkList d.channels).1 args
      else some args

/-! ## Reading the user back (`resourceRedisUserRead`, lines 120-224) -/

/-- The four locals `enabled`, `keys`, `commands`, `channels` of
`resourceRedisUserRead`. -/
structure Fields where
  enabled : Bool
  keys : List String
  commands : List String
  channels : List String
deriving DecidableEq, Repr

/-- The loop over `flags` (lines 157-162): an `"off"` flag clears `enabled`. -/
def scanFlags : List Reply → Bool → Bool
  | [], enabled => enabled
  | .str flagStr :: rest, enabled =>
    if flagStr = "off" then scanFlags rest false else scanFlags rest enabled
  | _ :: rest, enabled => scanFlags rest enabled

/-- Read's prefix stripping (lines 171-175 and 186-190): drop one leading `pre`
character if present. -/
def stripToken (pre : String) (patternStr : String) : String :=
  if HasPrefix patternStr pre then sliceFrom patternStr 1 else patternStr

/-- The loops over key and channel patterns (lines 167-177 and 182-192): every
string element is stripped and appended, any other element is skipped. -/
def scanPatterns (pre : String) : List Reply → List String → List String
  | [], acc => acc
  | .str patternStr :: rest, acc => scanPatterns pre rest (acc ++ [stripToken pre patternStr])
  | _ :: rest, acc => scanPatterns pre rest acc

/-- The body of the field loop (lines 154-199) for a field name `fieldName`
whose value `aclInfoSlice[i+1]` is `v`. -/
def applyField (fieldName : String) (v : Reply) (f : Fields) : Fields :=
  if fieldName = "flags" then
    match v with
    | .arr flags => { f with enabled := scanFlags flags f.enabled }
    | _ => f
  else if fieldName = "keys" then
    match v with
    | .arr keyPatterns => { f with keys := scanPatterns "~" keyPatterns f.keys }
    | _ => f
  else if fieldName = "channels" then
    match v with
    | .arr channelPatterns => { f with channels := scanPatterns "&" channelPatterns f.channels }
    | _ => f
  else if fieldName = "commands" then
    match v with
    | .str commandStr => { f with commands := f.commands ++ [commandStr] }
    | _ => f
  else f

/-- Whether the loop body reads `aclInfoSlice[i+1]` for this field name. -/
def readsValue (fieldName : String) : Bool :=
  fieldName = "flags" || fieldName = "keys" || fieldName = "channels" || fieldName = "commands"

/-- The field loop `for i := 0; i < len(aclInfoSlice); i += 2` (lines 149-200),
run on the part of the slice from index `i` on. The result is `none` when the
body evaluates `aclInfoSlice[i+1]` with `i+1 = len(aclInfoSlice)`: an index out
of range, on which the Go runtime panics. -/
def scanFields : List Reply → Fields → Option Fields
  | [], f => some f
  | [x], f =>
    match x with
    | .str fieldName => if readsValue fieldName then none else some f
    | _ => some f
  | x :: v :: rest, f =>
    match x with
    | .str fieldName => scanFields rest (applyField fieldName v f)
    | _ => scanFields rest f

/-- The scan of the `ACL LIST` lines (lines 213-219 and 268-274): the first line
that splits in two at its first space with first part equal to `username` gives
`acl_string`; no such line leaves it as it was. -/
def scanACLList : List String → String → ResourceData → ResourceData
  | [], _, d => d
  | acl :: rest, username, d =>
    match SplitN2 acl with
    | [p0, p1] => if p0 = username then { d with acl_string := p1 } else scanACLList rest username d
    | _ => scanACLList rest username d

/-- The operation `resourceRedisUserRead`. -/
def resourceRedisUserRead {σ : Type} (srv : Server σ) (c : Client σ) (d : ResourceData) :
    Run σ :=
  let username := d.id
  let r1 := c.Do srv ["ACL", "GETUSER", username]
  match r1.1 with
  | .error e =>
    if Contains e "User not found" then ⟨some [], r1.2, { d with id := "" }⟩
    else ⟨some (diag.FromErr e), r1.2, d⟩
  | .ok val =>
    match val.Slice with
    | .error e => ⟨some (diag.FromErr e), r1.2, d⟩
    | .ok aclInfoSlice =>
      let d1 := { d with username := username }
      match scanFields aclInfoSlice ⟨true, [], [], []⟩ with
      | none => ⟨none, r1.2, d1⟩
      | some f =>
        let d2 := { d1 with enabled := f.enabled, keys := f.keys, commands := f.commands,
                            channels := f.channels }
        let r2 := r1.2.Do srv ["ACL", "LIST"]
        match StringSlice r2.1 with
        | .error e => ⟨some (diag.FromErr e), r2.2, d2⟩
        | .ok aclString => ⟨some [], r2.2, scanACLList aclString username d2⟩

/-! ## The other operations -/

/-- The routine `updateUserACL` (lines 279-370): the argument list is built
(a panic there ends the call before any command is sent), then one
`ACL SETUSER` round trip, then a full Read. -/
def updateUserACL {σ : Type} (srv : Server σ) (c : Client σ) (d : ResourceData) : Run σ :=
  let username := d.username
  match setUserArgs d with
  | none => ⟨none, c, d⟩
  | some args =>
    let r := c.Do srv args
    match r.1 with
    | .error err =>
      ⟨some (diag.Errorf ("Failed to update Redis user '" ++ username ++ "': " ++ err)), r.2, d⟩
    | .ok _ => resourceRedisUserRead srv r.2 d

/-- The operation `resourceRedisUserUpdate`. -/
def resourceRedisUserUpdate {σ : Type} (srv : Server σ) (c : Client σ) (d : ResourceData) :
    Run σ :=
  updateUserACL srv c d

/-- The operation `resourceRedisUserCreate` (lines 88-118). The client method
`ACLList` sends the command `ACL LIST` and converts the reply to strings. -/
def resourceRedisUserCreate {σ : Type} (srv : Server σ) (c : Client σ) (d : ResourceData) :
    Run σ :=
  let username := d.username
  let r1 := c.Do srv ["ACL", "LIST"]
  match StringSlice r1.1 with
  | .error err => ⟨some (diag.FromErr err), r1.2, d⟩
  | .ok users =>
    let userExists := users.any (fun user => user = username)
    if !userExists then
      let r2 := r1.2.Do srv ["ACL", "SETUSER", username]
      match r2.1 with
      | .error err =>
        ⟨some (diag.Errorf ("Failed to create Redis user '" ++ username ++ "': " ++ err)),
          r2.2, d⟩
      | .ok _ => updateUserACL srv r2.2 { d with id := username }
    else updateUserACL srv r1.2 { d with id := username }

/-- The operation `resourceRedisUserDelete` (lines 232-248). -/
def resourceRedisUserDelete {σ : Type} (srv : Server σ) (c : Client σ) (d : ResourceData) :
    Run σ :=
  let username := d.id
  if username = "default" then
    ⟨some (diag.Errorf "Cannot delete the 'default' user"), c, d⟩
  else
    let r := c.Do srv ["ACL", "DELUSER", username]
    match r.1 with
    | .error err => ⟨some (diag.FromErr err), r.2, d⟩
    | .ok _ => ⟨some [], r.2, { d with id := "" }⟩

/-- The operation `resourceRedisUserImport` (lines 250-277). -/
def resourceRedisUserImport {σ : Type} (srv : Server σ) (c : Client σ) (d : ResourceData) :
    ImportRun σ :=
  let username := d.id
  let r1 := c.Do srv ["ACL", "GETUSER", username]
  match r1.1 with
  | .error _ => ⟨.error ("Redis user '" ++ username ++ "' not found"), r1.2⟩
  | .ok _ =>
    let d1 := { d with username := username }
    let r2 := r1.2.Do srv ["ACL", "LIST"]
    match StringSlice r2.1 with
    | .error err => ⟨.error err, r2.2⟩
    | .ok aclString => ⟨.ok [scanACLList aclString username d1], r2.2⟩

/-! ## Concrete inputs used by the examples -/

/-- A server that refuses every command with the error `NOPERM`. -/
def refusingServer : Server Unit :=
  ⟨fun s _ => (.error "NOPERM", s)⟩

/-- A server that answers `ACL GETUSER` with `getuser`, `ACL LIST` with `list`
and any other command with `OK`. -/
def scriptedServer (getuser list : Reply) : Server Unit :=
  ⟨fun s args =>
    if args.get? 1 = some "GETUSER" then (.ok getuser, s)
    else if args.get? 1 = some "LIST" then (.ok list, s)
    else (.ok (.str "OK"), s)⟩

/-- A fresh client handle: no command issued yet. -/
def freshClient : Client Unit :=
  ⟨(), []⟩

/-- The declared state of `testAccRedisUserConfig_full` for user `testuser`,
before creation. -/
def fullConfig : ResourceData :=
  { id := "", username := "testuser", password := "testpassword", enabled := true,
    keys := ["test:*", "cache:*"], commands := ["+@read", "+@write", "-@dangerous"],
    channels := ["news:*", "events:*"], reset_keys := true, reset_channels := true,
    reset_commands := true, acl_string := "" }

/-- A declared user with `enabled = false` and no password. -/
def disabledConfig : ResourceData :=
  { id := "alice", username := "alice", password := "", enabled := false,
    keys := ["cache:*"], commands := ["@read"], channels := [], reset_keys := false,
    reset_channels := false, reset_commands := false, acl_string := "" }

/-- A declared user one of whose key patterns is the empty string. -/
def emptyKeyConfig : ResourceData :=
  { id := "u", username := "u", password := "", enabled := true,
    keys := ["a", ""], commands := [], channels := [], reset_keys := false,
    reset_channels := false, reset_commands := false, acl_string := "" }

/-- The declared state of `testAccRedisUserConfig_update` for user `testuser`,
once created. -/
def updateConfig : ResourceData :=
  { id := "testuser", username := "testuser", password := "updatedpassword", enabled := true,
    keys := ["test:*", "cache:*"], commands := ["+@read", "+@write"],
    channels := ["news:*"], reset_keys := false, reset_channels := false,
    reset_commands := false, acl_string := "" }

/-! ## The string resource (`redis_string`) -/

/-- Modelled from the spec: the declared state of a `redis_string` (section 3,
"String entity"): the identity `d.Id()` and the fields `key`, `value`,
`overridable`. The file `resource_redis_string.go` is not among the sources;
only its tests are. -/
structure StringData where
  id : String
  key : String
  value : String
  overridable : Bool
deriving DecidableEq, Repr

/-- What one call of a string-resource operation leaves behind: the diagnostics
it returned, the client handle and the declared state. -/
structure StringRun (σ : Type) where
  result : Diagnostics
  client : Client σ
  data : StringData

/-- The error `redis.Nil` of go-redis, which the client reports for a `GET` of
an absent key. -/
def redisNil : String :=
  "redis: nil"

/-- Modelled from the spec: the message of the "already exists" error naming the
key (sections 4.1 and 7). The exact wording is not in the sources; the tests
fix only that the summary contains `already exists`. -/
def alreadyExistsMessage (key : String) : String :=
  "Key '" ++ key ++ "' already exists in Redis"

/-- Modelled from the spec: `resourceRedisStringRead` (section 4.1, "Read"):
issues `GET`; if the key is absent, clears the identity rather than failing;
any other client error is surfaced unchanged; otherwise the value read
populates the declared state. -/
def resourceRedisStringRead {σ : Type} (srv : Server σ) (c : Client σ) (d : StringData) :
    StringRun σ :=
  let key := d.id
  let r := c.Do srv ["GET", key]
  match r.1 with
  | .error e =>
    if e = redisNil then ⟨[], r.2, { d with id := "" }⟩
    else ⟨diag.FromErr e, r.2, d⟩
  | .ok (.str val) => ⟨[], r.2, { d with key := key, value := val }⟩
  | .ok v => ⟨diag.FromErr ("redis: unexpected type=" ++ v.typeName ++ " for String"), r.2, d⟩

/-- Modelled from the spec: `resourceRedisStringCreate` (section 4.1, "Create"):
checks existence via `EXISTS`; if the key exists and `overridable` is false,
fails with the "already exists" error naming the key; otherwise issues `SET`
and then re-reads the value via `GET` (a full Read) to populate declared state.
Any client error is surfaced unchanged (section 4.2, last paragraph). -/
def resourceRedisStringCreate {σ : Type} (srv : Server σ) (c : Client σ) (d : StringData) :
    StringRun σ :=
  let key := d.key
  let value := d.value
  let overridable := d.overridable
  let r1 := c.Do srv ["EXISTS", key]
  match r1.1 with
  | .error e => ⟨diag.FromErr e, r1.2, d⟩
  | .ok (.int count) =>
    if count > 0 && !overridable then
      ⟨diag.Errorf (alreadyExistsMessage key), r1.2, d⟩
    else
      let r2 := r1.2.Do srv ["SET", key, value]
      match r2.1 with
      | .error e => ⟨diag.FromErr e, r2.2, d⟩
      | .ok _ => resourceRedisStringRead srv r2.2 { d with id := key }
  | .ok v => ⟨diag.FromErr ("redis: unexpected type=" ++ v.typeName ++ " for Int64"), r1.2, d⟩

/-- The key-value store held by the server: the string value of each key, if
any. -/
abbrev Store := String → Option String

/-- The store after `SET key value`. -/
def Store.set (s : Store) (key value : String) : Store :=
  fun k => if k = key then some value else s k

/-- Modelled from the spec: the server's behaviour on the three string commands
the resource issues (section 6): `EXISTS key` answers 1 or 0, `SET key value`
stores the value and answers `OK`, `GET key` answers the value, or the nil
reply (which the client reports as `redis.Nil`) when the key is absent. Every
other command is refused. -/
def storeServer : Server Store :=
  ⟨fun s args =>
    match args with
    | [name, key] =>
      if name = "EXISTS" then (.ok (.int (if (s key).isSome then 1 else 0)), s)
      else if name = "GET" then
        match s key with
        | some v => (.ok (.str v), s)
        | none => (.error redisNil, s)
      else (.error "ERR unknown command", s)
    | [name, key, value] =>
      if name = "SET" then (.ok (.str "OK"), s.set key value)
      else (.error "ERR unknown command", s)
    | _ => (.error "ERR unknown command", s)⟩

/-- A server for which the user of every `ACL GETUSER` is unknown. -/
def unknownUserServer : Server Unit :=
  ⟨fun s _ => (.error "ERR User not found", s)⟩

/-- A store holding the single key `test-key` with value `old-value`. -/
def oneKeyStore : Store :=
  fun k => if k = "test-key" then some "old-value" else none

/-- The declared state of the string tests: `test-key`, `test-value`, with the
given `overridable` flag, before creation. -/
def stringConfig (overridable : Bool) : StringData :=
  { id := "", key := "test-key", value := "test-value", overridable := overridable }

/-! ## String lemmas -/

theorem HasPrefix_one (c x : Char) (cs : List Char) :
    HasPrefix ⟨x :: cs⟩ ⟨[c]⟩ = (c == x) := by
  simp [HasPrefix, List.isPrefixOf]

theorem HasPrefix_two (c1 c2 x : Char) (cs : List Char) :
    HasPrefix ⟨x :: cs⟩ ⟨[c1, c2]⟩ = (c1 == x && HasPrefix ⟨cs⟩ ⟨[c2]⟩) := by
  simp [HasPrefix, List.isPrefixOf]

theorem mk_append (a b : List Char) : (String.mk a) ++ (String.mk b) = String.mk (a ++ b) := rfl


theorem keyToken_cases (t : String) :
    keyToken t = if HasPrefix t "~" then t else "~" ++ t := by
  unfold keyToken
  cases HasPrefix t "~" <;> simp

theorem commandToken_cases (t : String) :
    commandToken t =
      if HasPrefix t "+" || HasPrefix t "-" then t
      else if HasPrefix t "@" then "+" ++ t
      else "+" ++ t := by
  cases t with
  | mk l =>
    cases l with
    | nil => decide
    | cons x cs =>
      show commandToken ⟨x :: cs⟩ =
        if HasPrefix ⟨x :: cs⟩ ⟨['+']⟩ || HasPrefix ⟨x :: cs⟩ ⟨['-']⟩ then _
        else if HasPrefix ⟨x :: cs⟩ ⟨['@']⟩ then ⟨['+']⟩ ++ _
        else ⟨['+']⟩ ++ _
      unfold commandToken
      show (if HasPrefix ⟨x :: cs⟩ ⟨['@']⟩ = true then
        if (!HasPrefix ⟨x :: cs⟩ ⟨['+', '@']⟩ && !HasPrefix ⟨x :: cs⟩ ⟨['-', '@']⟩) = true then
          (⟨['+', '@']⟩ : String) ++ sliceFrom ⟨x :: cs⟩ 1 else ⟨x :: cs⟩
        else if (!HasPrefix ⟨x :: cs⟩ ⟨['+']⟩ && !HasPrefix ⟨x :: cs⟩ ⟨['-']⟩) = true then
          (⟨['+']⟩ : String) ++ ⟨x :: cs⟩ else ⟨x :: cs⟩) = _
      simp only [HasPrefix_one, HasPrefix_two, sliceFrom, mk_append]
      by_cases h1 : x = '@'
      · subst h1
        simp
      · by_cases h2 : x = '+'
        · subst h2; simp
        · by_cases h3 : x = '-'
          · subst h3; simp
          · have e1 : ('@' == x) = false := by simpa using fun h => h1 h.symm
            have e2 : ('+' == x) = false := by simpa using fun h => h2 h.symm
            have e3 : ('-' == x) = false := by simpa using fun h => h3 h.symm
            simp [e1, e2, e3]

theorem HasPrefix_append_one (c : Char) (t : String) :
    HasPrefix (String.mk [c] ++ t) ⟨[c]⟩ = true := by
  cases t with
  | mk l => simp [mk_append, HasPrefix_one]

theorem keyToken_pre (t : String) : HasPrefix (keyToken t) "~" = true := by
  rw [keyToken_cases]
  by_cases h : HasPrefix t "~" = true
  · simp [h]
  · simp only [h]
    exact HasPrefix_append_one '~' t

theorem keyToken_idem (t : String) : keyToken (keyToken t) = keyToken t := by
  rw [keyToken_cases (keyToken t), keyToken_pre]; simp

theorem channelToken_cases (t : String) :
    channelToken t = if HasPrefix t "&" then t else "&" ++ t := by
  unfold channelToken
  cases HasPrefix t "&" <;> simp

theorem channelToken_pre (t : String) : HasPrefix (channelToken t) "&" = true := by
  rw [channelToken_cases]
  by_cases h : HasPrefix t "&" = true
  · simp [h]
  · simp only [h]
    exact HasPrefix_append_one '&' t

theorem channelToken_idem (t : String) : channelToken (channelToken t) = channelToken t := by
  rw [channelToken_cases (channelToken t), channelToken_pre]; simp

theorem commandToken_pre (t : String) :
    (HasPrefix (commandToken t) "+" || HasPrefix (commandToken t) "-") = true := by
  rw [commandToken_cases]
  by_cases h : (HasPrefix t "+" || HasPrefix t "-") = true
  · simp only [h, if_true]
  · have h1 : HasPrefix (String.mk ['+'] ++ t) ⟨['+']⟩ = true := HasPrefix_append_one '+' t
    simp only [h, ite_self]
    show (HasPrefix (String.mk ['+'] ++ t) ⟨['+']⟩ || _) = true
    rw [h1]; rfl

theorem commandToken_idem (t : String) : commandToken (commandToken t) = commandToken t := by
  rw [commandToken_cases (commandToken t), commandToken_pre]; simp

theorem stripToken_append_one (c : Char) (t : String) :
    stripToken ⟨[c]⟩ (String.mk [c] ++ t) = t := by
  unfold stripToken
  rw [HasPrefix_append_one]
  cases t with
  | mk l => simp [mk_append, sliceFrom]

theorem stripToken_ne (c : Char) (t : String) (h : HasPrefix t ⟨[c]⟩ = true) :
    stripToken ⟨[c]⟩ t ≠ t := by
  unfold stripToken
  rw [h]
  cases t with
  | mk l =>
    cases l with
    | nil => simp [HasPrefix, List.isPrefixOf] at h
    | cons x cs =>
      simp only [sliceFrom, if_true]
      intro heq
      have := congrArg (fun s => s.data.length) heq
      simp at this

/-! ## The `ACL SETUSER` argument list -/

theorem appendTokens_listElems (token : String → String) :
    ∀ (v : List String) (args : List String),
      appendTokens token (listElems v) args
        = if "" ∈ v then none else some (args ++ v.map token)
  | [], args => by simp [listElems, appendTokens]
  | s :: v, args => by
    have ih := appendTokens_listElems token v (args ++ [token s])
    by_cases hs : s = ""
    · subst hs
      simp [listElems, appendTokens]
    · have hs2 : ¬ "" = s := fun h => hs h.symm
      simp only [listElems, List.map_cons, hs, if_false, appendTokens, List.mem_cons, hs2,
        false_or] at ih ⊢
      rw [ih]
      simp

theorem tokenLoop_eq (token : String → String) (v : List String) (args : List String) :
    (if (GetOkList v).2 then appendTokens token (GetOkList v).1 args else some args)
      = if "" ∈ v then none else some (args ++ v.map token) := by
  cases v with
  | nil => simp [GetOkList]
  | cons s v =>
    simp only [GetOkList, List.isEmpty_cons, Bool.not_false, if_true]
    exact appendTokens_listElems token (s :: v) args

theorem setUserArgs_eq (d : ResourceData) :
    setUserArgs d =
      if "" ∈ d.keys ∨ "" ∈ d.commands ∨ "" ∈ d.channels then none
      else some (["ACL", "SETUSER", d.username]
        ++ (if d.enabled then ["on"] else [])
        ++ [if d.password ≠ "" then ">" ++ d.password else "nopass"]
        ++ ((if d.reset_keys then ["resetkeys"] else [])
            ++ (if d.reset_channels then ["resetchannels"] else [])
            ++ (if d.reset_commands then ["resetcommands"] else []))
        ++ d.keys.map keyToken ++ d.commands.map commandToken
        ++ d.channels.map channelToken) := by
  obtain ⟨id, u, pw, en, ks, cs, chs, rk, rc, rco, acl⟩ := d
  unfold setUserArgs
  simp only [tokenLoop_eq]
  by_cases hk : "" ∈ ks
  · simp [hk]
  · by_cases hc : "" ∈ cs
    · simp [hk, hc]
    · by_cases hh : "" ∈ chs
      · simp [hk, hc, hh]
      · by_cases hp : pw = ""
        · cases en <;> cases rk <;> cases rc <;> cases rco <;>
            simp [GetOkBool, GetOkString, hp, hk, hc, hh]
        · cases en <;> cases rk <;> cases rc <;> cases rco <;>
            simp [GetOkBool, GetOkString, hp, hk, hc, hh]

theorem setUserArgs_none_iff (d : ResourceData) :
    setUserArgs d = none ↔ ("" ∈ d.keys ∨ "" ∈ d.commands ∨ "" ∈ d.channels) := by
  rw [setUserArgs_eq]
  by_cases h : "" ∈ d.keys ∨ "" ∈ d.commands ∨ "" ∈ d.channels
  · simp only [h, if_true]
  · simp only [h, if_false, iff_false]
    exact fun hh => Option.noConfusion hh

theorem passwordToken_ne (pw : String) :
    (if pw ≠ "" then ">" ++ pw else "nopass") ≠ "off" ∧
    (if pw ≠ "" then ">" ++ pw else "nopass") ≠ "on" := by
  by_cases hp : pw = ""
  · subst hp; decide
  · simp only [ne_eq, hp, not_false_eq_true, if_true]
    have h := HasPrefix_append_one '>' pw
    constructor
    · intro heq
      have h2 : HasPrefix (String.mk ['>'] ++ pw) ⟨['>']⟩ = HasPrefix "off" ⟨['>']⟩ :=
        congrArg (fun s => HasPrefix s ⟨['>']⟩) heq
      rw [h] at h2
      exact absurd h2 (by decide)
    · intro heq
      have h2 : HasPrefix (String.mk ['>'] ++ pw) ⟨['>']⟩ = HasPrefix "on" ⟨['>']⟩ :=
        congrArg (fun s => HasPrefix s ⟨['>']⟩) heq
      rw [h] at h2
      exact absurd h2 (by decide)

theorem resetTokens_not_mem (a b c : Bool) (t : String) (h1 : t ≠ "resetkeys")
    (h2 : t ≠ "resetchannels") (h3 : t ≠ "resetcommands") :
    t ∉ (if a then ["resetkeys"] else [])
          ++ (if b then ["resetchannels"] else [])
          ++ (if c then ["resetcommands"] else []) := by
  cases a <;> cases b <;> cases c <;> simp [h1, h2, h3]

theorem keyToken_not_mem (t : String) (ht : HasPrefix t "~" = false) (ks : List String) :
    t ∉ ks.map keyToken := by
  intro hm
  obtain ⟨k, -, hk⟩ := List.mem_map.mp hm
  have := keyToken_pre k
  rw [hk, ht] at this
  exact Bool.noConfusion this

theorem channelToken_not_mem (t : String) (ht : HasPrefix t "&" = false) (ks : List String) :
    t ∉ ks.map channelToken := by
  intro hm
  obtain ⟨k, -, hk⟩ := List.mem_map.mp hm
  have := channelToken_pre k
  rw [hk, ht] at this
  exact Bool.noConfusion this

theorem commandToken_not_mem (t : String) (ht : (HasPrefix t "+" || HasPrefix t "-") = false)
    (ks : List String) : t ∉ ks.map commandToken := by
  intro hm
  obtain ⟨k, -, hk⟩ := List.mem_map.mp hm
  have := commandToken_pre k
  rw [hk, ht] at this
  exact Bool.noConfusion this

theorem switch_not_mem_tail (d : ResourceData) (t : String) (h0 : t = "on" ∨ t = "off") :
    t ∉ [if d.password ≠ "" then ">" ++ d.password else "nopass"]
        ++ ((if d.reset_keys then ["resetkeys"] else [])
            ++ (if d.reset_channels then ["resetchannels"] else [])
            ++ (if d.reset_commands then ["resetcommands"] else []))
        ++ d.keys.map keyToken ++ d.commands.map commandToken
        ++ d.channels.map channelToken := by
  have hp := passwordToken_ne d.password
  have hr : t ∉ (if d.reset_keys then ["resetkeys"] else [])
          ++ (if d.reset_channels then ["resetchannels"] else [])
          ++ (if d.reset_commands then ["resetcommands"] else []) := by
    apply resetTokens_not_mem <;> rcases h0 with h | h <;> subst h <;> decide
  have hk : t ∉ d.keys.map keyToken :=
    keyToken_not_mem t (by rcases h0 with h | h <;> subst h <;> decide) _
  have hc : t ∉ d.commands.map commandToken :=
    commandToken_not_mem t (by rcases h0 with h | h <;> subst h <;> decide) _
  have hh : t ∉ d.channels.map channelToken :=
    channelToken_not_mem t (by rcases h0 with h | h <;> subst h <;> decide) _
  have hpt : t ≠ (if d.password ≠ "" then ">" ++ d.password else "nopass") := by
    rcases h0 with h | h <;> subst h
    · exact fun h => hp.2 h.symm
    · exact fun h => hp.1 h.symm
  simp only [List.mem_append, List.mem_singleton, not_or] at hr ⊢
  exact ⟨⟨⟨⟨hpt, hr⟩, hk⟩, hc⟩, hh⟩

/-! ## Traces of the operations -/

theorem issued_of_trace {σ : Type} {c c' : Client σ} {rest : List Exchange}
    (h : c'.trace = c.trace ++ rest) : issued c c' = rest := by
  simp [issued, h]

theorem issued_one {σ : Type} (c : Client σ) (s : σ) (a : Exchange) :
    issued c ⟨s, c.trace ++ [a]⟩ = [a] := by
  simp [issued]

theorem issued_two {σ : Type} (c : Client σ) (s : σ) (a b : Exchange) :
    issued c ⟨s, c.trace ++ [a] ++ [b]⟩ = [a, b] := by
  simp [issued]

theorem StringSlice_error (e : String) : StringSlice (.error e) = .error e := rfl

theorem StringSlice_ok_of_error {r : Except String Reply} {e : String} {ss : List String}
    (h : StringSlice r = .ok ss) : r ≠ .error e := by
  intro hr
  rw [hr] at h
  exact Except.noConfusion h

theorem Read_trace {σ : Type} (srv : Server σ) (c : Client σ) (d : ResourceData) :
    ∃ rest, (resourceRedisUserRead srv c d).client.trace
        = c.trace ++ ⟨["ACL", "GETUSER", d.id], (srv.exec c.state ["ACL", "GETUSER", d.id]).1⟩
            :: rest ∧
      ∀ x ∈ rest, x.cmd = ["ACL", "LIST"] := by
  unfold resourceRedisUserRead
  simp only [Client.Do]
  split
  · split
    · exact ⟨[], rfl, by simp⟩
    · exact ⟨[], rfl, by simp⟩
  · split
    · exact ⟨[], rfl, by simp⟩
    · split
      · exact ⟨[], rfl, by simp⟩
      · split
        · exact ⟨[⟨["ACL", "LIST"],
            (srv.exec (srv.exec c.state ["ACL", "GETUSER", d.id]).2 ["ACL", "LIST"]).1⟩],
            by simp, by simp⟩
        · exact ⟨[⟨["ACL", "LIST"],
            (srv.exec (srv.exec c.state ["ACL", "GETUSER", d.id]).2 ["ACL", "LIST"]).1⟩],
            by simp, by simp⟩

theorem Read_error_reported {σ : Type} (srv : Server σ) (c : Client σ) (d : ResourceData)
    (x : Exchange) (e : String)
    (hx : x ∈ issued c (resourceRedisUserRead srv c d).client)
    (he : x.result = .error e)
    (hn : ¬ (x.cmd = ["ACL", "GETUSER", d.id] ∧ Contains e "User not found" = true)) :
    (resourceRedisUserRead srv c d).result = some (diag.FromErr e) := by
  unfold resourceRedisUserRead at hx ⊢
  simp only [Client.Do] at hx ⊢
  split at hx
  · rename_i e0 h0
    split at hx
    · rename_i hc
      simp only [issued_one, List.mem_singleton] at hx
      subst hx
      simp only [h0, Except.error.injEq] at he
      subst he
      exact absurd ⟨rfl, hc⟩ hn
    · rename_i hc
      simp only [issued_one, List.mem_singleton] at hx
      subst hx
      simp only [h0, Except.error.injEq] at he
      subst he
      simp [h0, hc]
  · rename_i val h0
    split at hx
    · simp only [issued_one, List.mem_singleton] at hx
      subst hx
      simp [h0] at he
    · split at hx
      · simp only [issued_one, List.mem_singleton] at hx
        subst hx
        simp [h0] at he
      · rename_i aclInfoSlice hs _ f hf
        split at hx
        · rename_i e1 h1
          simp only [issued_two, List.mem_cons, List.mem_singleton, List.not_mem_nil,
            or_false] at hx
          rcases hx with hx | hx
          · subst hx; simp [h0] at he
          · subst hx
            simp only at he
            rw [he, StringSlice_error] at h1
            simp only [Except.error.injEq] at h1
            subst h1
            simp [h0, hs, hf, he, StringSlice_error]
        · rename_i ss h1
          simp only [issued_two, List.mem_cons, List.mem_singleton, List.not_mem_nil,
            or_false] at hx
          rcases hx with hx | hx
          · subst hx; simp [h0] at he
          · subst hx
            simp only at he
            exact absurd he (StringSlice_ok_of_error h1)

theorem setUserArgs_shape (d : ResourceData) (args : List String)
    (ha : setUserArgs d = some args) :
    ∃ t ts, args = "ACL" :: "SETUSER" :: d.username :: t :: ts := by
  rw [setUserArgs_eq] at ha
  split at ha
  · exact Option.noConfusion ha
  · have ha2 := (Option.some.inj ha).symm
    rw [ha2]
    cases d.enabled
    · simp only [Bool.false_eq_true, if_false, List.append_nil, List.cons_append,
        List.nil_append, List.append_assoc, List.singleton_append]
      exact ⟨_, _, rfl⟩
    · simp only [if_true, List.cons_append,
        List.nil_append, List.append_assoc, List.singleton_append]
      exact ⟨_, _, rfl⟩

theorem setUserArgs_ne_create (d : ResourceData) (u : String) :
    setUserArgs d ≠ some ["ACL", "SETUSER", u] := by
  intro ha
  obtain ⟨t, ts, h⟩ := setUserArgs_shape d _ ha
  simp at h

theorem setUserArgs_ne_getuser (d : ResourceData) (u : String) :
    setUserArgs d ≠ some ["ACL", "GETUSER", u] := by
  intro ha
  obtain ⟨t, ts, h⟩ := setUserArgs_shape d _ ha
  simp at h

theorem setUserArgs_ne_list (d : ResourceData) : setUserArgs d ≠ some ["ACL", "LIST"] := by
  intro ha
  obtain ⟨t, ts, h⟩ := setUserArgs_shape d _ ha
  simp at h

theorem setUserArgs_id (d : ResourceData) (i : String) :
    setUserArgs { d with id := i } = setUserArgs d := rfl

theorem update_of_none {σ : Type} (srv : Server σ) (c : Client σ) (d : ResourceData)
    (ha : setUserArgs d = none) : updateUserACL srv c d = ⟨none, c, d⟩ := by
  unfold updateUserACL
  rw [ha]

theorem update_of_error {σ : Type} (srv : Server σ) (c : Client σ) (d : ResourceData)
    (args : List String) (ha : setUserArgs d = some args)
    (err : String) (h : (srv.exec c.state args).1 = .error err) :
    updateUserACL srv c d =
      ⟨some (diag.Errorf ("Failed to update Redis user '" ++ d.username ++ "': " ++ err)),
        (c.Do srv args).2, d⟩ := by
  unfold updateUserACL
  rw [ha]
  simp only [Client.Do]
  rw [h]

theorem update_of_ok {σ : Type} (srv : Server σ) (c : Client σ) (d : ResourceData)
    (args : List String) (ha : setUserArgs d = some args)
    (v : Reply) (h : (srv.exec c.state args).1 = .ok v) :
    updateUserACL srv c d = resourceRedisUserRead srv (c.Do srv args).2 d := by
  unfold updateUserACL
  rw [ha]
  simp only [Client.Do]
  rw [h]

theorem update_trace {σ : Type} (srv : Server σ) (c : Client σ) (d : ResourceData)
    (args : List String) (ha : setUserArgs d = some args) :
    ∃ rest, (updateUserACL srv c d).client.trace
        = c.trace ++ ⟨args, (srv.exec c.state args).1⟩ :: rest ∧
      ∀ x ∈ rest, x.cmd = ["ACL", "GETUSER", d.id] ∨ x.cmd = ["ACL", "LIST"] := by
  cases h0 : (srv.exec c.state args).1 with
  | error err =>
    rw [update_of_error srv c d args ha err h0]
    exact ⟨[], by simp [Client.Do, h0], by simp⟩
  | ok v =>
    rw [update_of_ok srv c d args ha v h0]
    obtain ⟨rest, htr, hl⟩ := Read_trace srv (c.Do srv args).2 d
    refine ⟨⟨["ACL", "GETUSER", d.id],
      (srv.exec (c.Do srv args).2.state ["ACL", "GETUSER", d.id]).1⟩ :: rest, ?_, ?_⟩
    · rw [htr]; simp [Client.Do, h0]
    · intro x hx
      rcases List.mem_cons.mp hx with h | h
      · left; rw [h]
      · right; exact hl x h

theorem update_issued {σ : Type} (srv : Server σ) (c : Client σ) (d : ResourceData)
    (args : List String) (ha : setUserArgs d = some args) :
    ∃ rest, issued c (updateUserACL srv c d).client
        = ⟨args, (srv.exec c.state args).1⟩ :: rest ∧
      ∀ x ∈ rest, x.cmd = ["ACL", "GETUSER", d.id] ∨ x.cmd = ["ACL", "LIST"] := by
  obtain ⟨rest, htr, hl⟩ := update_trace srv c d args ha
  exact ⟨rest, issued_of_trace htr, hl⟩

theorem update_issued_none {σ : Type} (srv : Server σ) (c : Client σ) (d : ResourceData)
    (ha : setUserArgs d = none) : issued c (updateUserACL srv c d).client = [] := by
  rw [update_of_none srv c d ha]
  simp [issued]

theorem update_error_reported {σ : Type} (srv : Server σ) (c : Client σ) (d : ResourceData)
    (x : Exchange) (e : String)
    (hx : x ∈ issued c (updateUserACL srv c d).client)
    (he : x.result = .error e) :
    (setUserArgs d = some x.cmd → (updateUserACL srv c d).result
        = some (diag.Errorf ("Failed to update Redis user '" ++ d.username ++ "': " ++ e))) ∧
    (setUserArgs d ≠ some x.cmd →
      ¬ (x.cmd = ["ACL", "GETUSER", d.id] ∧ Contains e "User not found" = true) →
      (updateUserACL srv c d).result = some (diag.FromErr e)) := by
  cases ha : setUserArgs d with
  | none =>
    rw [update_issued_none srv c d ha] at hx
    exact absurd hx (List.not_mem_nil _)
  | some args =>
    cases h0 : (srv.exec c.state args).1 with
    | error err =>
      rw [update_of_error srv c d args ha err h0] at hx ⊢
      simp only [Client.Do, issued_one, List.mem_singleton] at hx
      subst hx
      simp only [h0, Except.error.injEq] at he
      subst he
      simp
    | ok v =>
      rw [update_of_ok srv c d args ha v h0] at hx ⊢
      obtain ⟨rest, htr, hl⟩ := Read_trace srv (c.Do srv args).2 d
      have hiss : issued c (resourceRedisUserRead srv (c.Do srv args).2 d).client
          = ⟨args, (srv.exec c.state args).1⟩
            :: ⟨["ACL", "GETUSER", d.id], (srv.exec (c.Do srv args).2.state
                ["ACL", "GETUSER", d.id]).1⟩ :: rest :=
        issued_of_trace (by rw [htr]; simp [Client.Do])
      rw [hiss] at hx
      rcases List.mem_cons.mp hx with h | h
      · subst h; simp [h0] at he
      · have hx2 : x ∈ issued (c.Do srv args).2
            (resourceRedisUserRead srv (c.Do srv args).2 d).client := by
          rw [issued_of_trace htr]; exact h
        have hcmd : some args ≠ some x.cmd := by
          rw [← ha]
          rcases List.mem_cons.mp h with h | h
          · rw [h]; exact setUserArgs_ne_getuser d _
          · rw [hl x h]; exact setUserArgs_ne_list d
        exact ⟨fun hh => absurd hh hcmd, fun _ hn => Read_error_reported srv _ d x e hx2 he hn⟩

theorem create_of_list_error {σ : Type} (srv : Server σ) (c : Client σ) (d : ResourceData)
    (err : String) (h : StringSlice (srv.exec c.state ["ACL", "LIST"]).1 = .error err) :
    resourceRedisUserCreate srv c d
      = ⟨some (diag.FromErr err), (c.Do srv ["ACL", "LIST"]).2, d⟩ := by
  unfold resourceRedisUserCreate
  simp only [Client.Do]
  rw [h]

theorem create_of_setuser_error {σ : Type} (srv : Server σ) (c : Client σ) (d : ResourceData)
    (users : List String) (err : String)
    (h : StringSlice (srv.exec c.state ["ACL", "LIST"]).1 = .ok users)
    (hu : users.any (fun user => user = d.username) = false)
    (h2 : (srv.exec (c.Do srv ["ACL", "LIST"]).2.state ["ACL", "SETUSER", d.username]).1
      = .error err) :
    resourceRedisUserCreate srv c d
      = ⟨some (diag.Errorf ("Failed to create Redis user '" ++ d.username ++ "': " ++ err)),
          ((c.Do srv ["ACL", "LIST"]).2.Do srv ["ACL", "SETUSER", d.username]).2, d⟩ := by
  unfold resourceRedisUserCreate
  simp only [Client.Do] at h2 ⊢
  rw [h]
  simp only [hu, Bool.not_false, if_true]
  rw [h2]

theorem create_of_setuser_ok {σ : Type} (srv : Server σ) (c : Client σ) (d : ResourceData)
    (users : List String) (v : Reply)
    (h : StringSlice (srv.exec c.state ["ACL", "LIST"]).1 = .ok users)
    (hu : users.any (fun user => user = d.username) = false)
    (h2 : (srv.exec (c.Do srv ["ACL", "LIST"]).2.state ["ACL", "SETUSER", d.username]).1
      = .ok v) :
    resourceRedisUserCreate srv c d
      = updateUserACL srv ((c.Do srv ["ACL", "LIST"]).2.Do srv ["ACL", "SETUSER", d.username]).2
          { d with id := d.username } := by
  unfold resourceRedisUserCreate
  simp only [Client.Do] at h2 ⊢
  rw [h]
  simp only [hu, Bool.not_false, if_true]
  rw [h2]

theorem create_of_exists {σ : Type} (srv : Server σ) (c : Client σ) (d : ResourceData)
    (users : List String)
    (h : StringSlice (srv.exec c.state ["ACL", "LIST"]).1 = .ok users)
    (hu : users.any (fun user => user = d.username) = true) :
    resourceRedisUserCreate srv c d
      = updateUserACL srv (c.Do srv ["ACL", "LIST"]).2 { d with id := d.username } := by
  unfold resourceRedisUserCreate
  simp only [Client.Do]
  rw [h]
  simp only [hu, Bool.not_true, Bool.false_eq_true, if_false]

theorem update_issued_cmd {σ : Type} (srv : Server σ) (c : Client σ) (d : ResourceData)
    (x : Exchange) (hx : x ∈ issued c (updateUserACL srv c d).client) :
    setUserArgs d = some x.cmd ∨ x.cmd = ["ACL", "GETUSER", d.id] ∨ x.cmd = ["ACL", "LIST"] := by
  cases ha : setUserArgs d with
  | none =>
    rw [update_issued_none srv c d ha] at hx
    exact absurd hx (List.not_mem_nil _)
  | some args =>
    obtain ⟨rest, hi, hl⟩ := update_issued srv c d args ha
    rw [hi] at hx
    rcases List.mem_cons.mp hx with h | h
    · left; rw [h]
    · right; exact hl x h

theorem update_trace_ext {σ : Type} (srv : Server σ) (c : Client σ) (d : ResourceData) :
    (updateUserACL srv c d).client.trace
      = c.trace ++ issued c (updateUserACL srv c d).client := by
  cases ha : setUserArgs d with
  | none =>
    rw [update_issued_none srv c d ha, update_of_none srv c d ha]
    simp
  | some args =>
    obtain ⟨rest, htr, -⟩ := update_trace srv c d args ha
    rw [issued_of_trace htr, htr]

theorem issued_update_after {σ : Type} (srv : Server σ) (d : ResourceData) (c c2 : Client σ)
    (l : List Exchange) (h2 : c2.trace = c.trace ++ l) :
    issued c (updateUserACL srv c2 d).client
      = l ++ issued c2 (updateUserACL srv c2 d).client := by
  have h3 := update_trace_ext srv c2 d
  generalize issued c2 (updateUserACL srv c2 d).client = r at h3 ⊢
  unfold issued
  rw [h3, h2, List.append_assoc, List.drop_left]

theorem create_error_reported {σ : Type} (srv : Server σ) (c : Client σ) (d : ResourceData)
    (x : Exchange) (e : String)
    (hx : x ∈ issued c (resourceRedisUserCreate srv c d).client)
    (he : x.result = .error e) :
    (x.cmd = ["ACL", "SETUSER", d.username] → (resourceRedisUserCreate srv c d).result
        = some (diag.Errorf ("Failed to create Redis user '" ++ d.username ++ "': " ++ e))) ∧
    (setUserArgs d = some x.cmd → (resourceRedisUserCreate srv c d).result
        = some (diag.Errorf ("Failed to update Redis user '" ++ d.username ++ "': " ++ e))) ∧
    (x.cmd ≠ ["ACL", "SETUSER", d.username] → setUserArgs d ≠ some x.cmd →
      ¬ (x.cmd = ["ACL", "GETUSER", d.username] ∧ Contains e "User not found" = true) →
      (resourceRedisUserCreate srv c d).result = some (diag.FromErr e)) := by
  have key : ∀ (c2 : Client σ),
      x ∈ issued c2 (updateUserACL srv c2 { d with id := d.username }).client →
      (x.cmd = ["ACL", "SETUSER", d.username] →
        (updateUserACL srv c2 { d with id := d.username }).result
          = some (diag.Errorf ("Failed to create Redis user '" ++ d.username ++ "': " ++ e))) ∧
      (setUserArgs d = some x.cmd → (updateUserACL srv c2 { d with id := d.username }).result
          = some (diag.Errorf ("Failed to update Redis user '" ++ d.username ++ "': " ++ e))) ∧
      (x.cmd ≠ ["ACL", "SETUSER", d.username] → setUserArgs d ≠ some x.cmd →
        ¬ (x.cmd = ["ACL", "GETUSER", d.username] ∧ Contains e "User not found" = true) →
        (updateUserACL srv c2 { d with id := d.username }).result = some (diag.FromErr e)) := by
    intro c2 hx2
    have hu := update_error_reported srv c2 { d with id := d.username } x e hx2 he
    have hc := update_issued_cmd srv c2 { d with id := d.username } x hx2
    rw [setUserArgs_id] at hu hc
    refine ⟨?_, hu.1, fun _ h2 h3 => hu.2 h2 h3⟩
    intro h1
    rcases hc with h | h | h
    · rw [h1] at h; exact absurd h (setUserArgs_ne_create d _)
    · rw [h] at h1; simp at h1
    · rw [h] at h1; simp at h1
  cases hA : StringSlice (srv.exec c.state ["ACL", "LIST"]).1 with
  | error err =>
    rw [create_of_list_error srv c d err hA] at hx ⊢
    simp only [Client.Do, issued_one, List.mem_singleton] at hx
    subst hx
    simp only at he
    rw [he, StringSlice_error] at hA
    simp only [Except.error.injEq] at hA
    subst hA
    refine ⟨fun h => ?_, fun h => ?_, fun _ _ _ => rfl⟩
    · simp at h
    · exact absurd h (setUserArgs_ne_list d)
  | ok users =>
    have hne : (srv.exec c.state ["ACL", "LIST"]).1 ≠ .error e := StringSlice_ok_of_error hA
    cases hu : users.any (fun user => decide (user = d.username)) with
    | true =>
      rw [create_of_exists srv c d users hA hu] at hx ⊢
      rw [issued_update_after srv _ c _ [⟨["ACL", "LIST"], (srv.exec c.state ["ACL", "LIST"]).1⟩]
        (by simp [Client.Do])] at hx
      simp only [List.singleton_append, List.mem_cons] at hx
      rcases hx with h | h
      · subst h; exact absurd he hne
      · exact key _ h
    | false =>
      cases h2 : (srv.exec (c.Do srv ["ACL", "LIST"]).2.state ["ACL", "SETUSER", d.username]).1 with
      | error err =>
        rw [create_of_setuser_error srv c d users err hA hu h2] at hx ⊢
        simp only [Client.Do, issued_two, List.mem_cons, List.mem_singleton, List.not_mem_nil,
          or_false] at hx
        rcases hx with h | h
        · subst h; exact absurd he hne
        · subst h
          simp only [Client.Do] at h2 he
          simp only [h2, Except.error.injEq] at he
          subst he
          refine ⟨fun _ => rfl, fun h => ?_, fun h => ?_⟩
          · exact absurd h (setUserArgs_ne_create d _)
          · exact absurd rfl h
      | ok v =>
        rw [create_of_setuser_ok srv c d users v hA hu h2] at hx ⊢
        rw [issued_update_after srv _ c _
          [⟨["ACL", "LIST"], (srv.exec c.state ["ACL", "LIST"]).1⟩,
            ⟨["ACL", "SETUSER", d.username],
              (srv.exec (c.Do srv ["ACL", "LIST"]).2.state ["ACL", "SETUSER", d.username]).1⟩]
          (by simp [Client.Do])] at hx
        simp only [List.cons_append, List.nil_append, List.mem_cons] at hx
        rcases hx with h | h | h
        · subst h; exact absurd he hne
        · subst h
          simp only [Client.Do] at h2 he
          simp [h2] at he
        · exact key _ h

theorem issued_self {σ : Type} (c : Client σ) : issued c c = [] := by
  simp [issued]

theorem delete_error_reported {σ : Type} (srv : Server σ) (c : Client σ) (d : ResourceData)
    (x : Exchange) (e : String)
    (hx : x ∈ issued c (resourceRedisUserDelete srv c d).client)
    (he : x.result = .error e) :
    (resourceRedisUserDelete srv c d).result = some (diag.FromErr e) := by
  unfold resourceRedisUserDelete at hx ⊢
  simp only [Client.Do] at hx ⊢
  by_cases hd : d.id = "default"
  · simp only [hd, if_true, issued_self, List.not_mem_nil] at hx
  · simp only [hd, if_false] at hx ⊢
    cases h0 : (srv.exec c.state ["ACL", "DELUSER", d.id]).1 with
    | error err =>
      simp only [h0, issued_one, List.mem_singleton] at hx
      subst hx
      simp only [Except.error.injEq] at he
      subst he
      rfl
    | ok v =>
      simp only [h0, issued_one, List.mem_singleton] at hx
      subst hx
      simp at he

theorem import_error_reported {σ : Type} (srv : Server σ) (c : Client σ) (d : ResourceData)
    (x : Exchange) (e : String)
    (hx : x ∈ issued c (resourceRedisUserImport srv c d).client)
    (he : x.result = .error e) :
    (x.cmd = ["ACL", "GETUSER", d.id] → (resourceRedisUserImport srv c d).result
        = .error ("Redis user '" ++ d.id ++ "' not found")) ∧
    (x.cmd ≠ ["ACL", "GETUSER", d.id] →
      (resourceRedisUserImport srv c d).result = .error e) := by
  unfold resourceRedisUserImport at hx ⊢
  simp only [Client.Do] at hx ⊢
  cases h0 : (srv.exec c.state ["ACL", "GETUSER", d.id]).1 with
  | error err =>
    simp only [h0, issued_one, List.mem_singleton] at hx
    subst hx
    exact ⟨fun _ => rfl, fun h => absurd rfl h⟩
  | ok v =>
    simp only [h0] at hx ⊢
    cases h1 : StringSlice (srv.exec (srv.exec c.state ["ACL", "GETUSER", d.id]).2
        ["ACL", "LIST"]).1 with
    | error err =>
      simp only [h1, issued_two, List.mem_cons, List.mem_singleton, List.not_mem_nil,
        or_false] at hx
      rcases hx with h | h
      · subst h; simp at he
      · subst h
        simp only at he
        rw [he, StringSlice_error] at h1
        simp only [Except.error.injEq] at h1
        subst h1
        exact ⟨fun h => by simp at h, fun _ => rfl⟩
    | ok ss =>
      simp only [h1, issued_two, List.mem_cons, List.mem_singleton, List.not_mem_nil,
        or_false] at hx
      rcases hx with h | h
      · subst h; simp at he
      · subst h
        exact absurd he (StringSlice_ok_of_error h1)

/-! ## The field loop of Read -/

theorem scanFields_odd_none (name : String) (hname : readsValue name = true) :
    ∀ (pairs : List Reply) (f : Fields), pairs.length % 2 = 0 →
      scanFields (pairs ++ [.str name]) f = none
  | [], f, _ => by simp [scanFields, hname]
  | [_], _, h => by simp at h
  | x :: v :: rest, f, h => by
    have hr : rest.length % 2 = 0 := by
      simp only [List.length_cons] at h
      omega
    cases x <;> simp only [List.cons_append, scanFields] <;>
      exact scanFields_odd_none name hname rest _ hr

theorem scanFields_even_some :
    ∀ (l : List Reply) (f : Fields), l.length % 2 = 0 → (scanFields l f).isSome = true
  | [], f, _ => by simp [scanFields]
  | [_], _, h => by simp at h
  | x :: v :: rest, f, h => by
    have hr : rest.length % 2 = 0 := by
      simp only [List.length_cons] at h
      omega
    cases x <;> simp only [scanFields] <;> exact scanFields_even_some rest _ hr

/-! ## The scan of the `ACL LIST` lines -/

theorem SplitN2_user (l : String) (h : HasPrefix l "user " = true) :
    ∃ rest, SplitN2 l = ["user", rest] := by
  cases l with
  | mk cs =>
    have hp : ['u', 's', 'e', 'r', ' '] <+: cs := List.isPrefixOf_iff_prefix.mp h
    obtain ⟨t, rfl⟩ := hp
    refine ⟨⟨t⟩, ?_⟩
    simp [SplitN2, cutAtSpace]

theorem scanACLList_user_unchanged (username : String) (hu : username ≠ "user")
    (d : ResourceData) :
    ∀ lines : List String, (∀ l ∈ lines, HasPrefix l "user " = true) →
      scanACLList lines username d = d
  | [], _ => rfl
  | l :: rest, h => by
    obtain ⟨r, hr⟩ := SplitN2_user l (h l (List.mem_cons_self _ _))
    have ih := scanACLList_user_unchanged username hu d rest
      (fun l' hl' => h l' (List.mem_cons_of_mem _ hl'))
    simp only [scanACLList, hr]
    rw [if_neg (fun hh => hu hh.symm)]
    exact ih

/-! ## The claims -/

/-- C1 (the code departs from the claim): for every declared user whose
`enabled` field is false, whenever `updateUserACL` gets as far as building its
command, the token placed immediately after the username is the password
token, which is never `off`, and neither `off` nor `on` occurs anywhere after
the username: the `off` branch of lines 289-291 is never taken, because `GetOk`
reports `ok = false` for `false`. When the command is not built (an element
loop panicked) nothing is sent at all; and every round trip of `updateUserACL`
is that command or the `ACL GETUSER` / `ACL LIST` of Read. -/
theorem disabled_user_sends_no_off {σ : Type} (srv : Server σ) (c : Client σ)
    (d : ResourceData) (h : d.enabled = false) :
    (∀ args, setUserArgs d = some args →
      args.take 3 = ["ACL", "SETUSER", d.username] ∧
      args.get? 3 = some (if d.password ≠ "" then ">" ++ d.password else "nopass") ∧
      args.get? 3 ≠ some "off" ∧
      "off" ∉ args.drop 3 ∧ "on" ∉ args.drop 3) ∧
    (setUserArgs d = none → issued c (updateUserACL srv c d).client = []) ∧
    (∀ x ∈ issued c (updateUserACL srv c d).client,
      setUserArgs d = some x.cmd ∨ x.cmd = ["ACL", "GETUSER", d.id] ∨
        x.cmd = ["ACL", "LIST"]) := by
  refine ⟨?_, update_issued_none srv c d, update_issued_cmd srv c d⟩
  intro args ha
  rw [setUserArgs_eq] at ha
  split at ha
  · exact Option.noConfusion ha
  · have ha2 := (Option.some.inj ha).symm
    rw [h] at ha2
    have hd : args.drop 3 =
        [if d.password ≠ "" then ">" ++ d.password else "nopass"]
          ++ ((if d.reset_keys then ["resetkeys"] else [])
              ++ (if d.reset_channels then ["resetchannels"] else [])
              ++ (if d.reset_commands then ["resetcommands"] else []))
          ++ d.keys.map keyToken ++ d.commands.map commandToken
          ++ d.channels.map channelToken := by
      rw [ha2]; simp
    have h3 : args.get? 3
        = some (if d.password ≠ "" then ">" ++ d.password else "nopass") := by
      rw [ha2]; simp
    refine ⟨by rw [ha2]; simp, h3, ?_, ?_, ?_⟩
    · rw [h3]
      intro heq
      exact (passwordToken_ne d.password).1 (Option.some.inj heq)
    · rw [hd]; exact switch_not_mem_tail d "off" (Or.inr rfl)
    · rw [hd]; exact switch_not_mem_tail d "on" (Or.inl rfl)

/-- C1, at a concrete disabled user: the command is
`ACL SETUSER alice nopass ~cache:* +@read`. -/
theorem disabled_user_sends_no_off_witness :
    disabledConfig.enabled = false ∧
    setUserArgs disabledConfig
      = some ["ACL", "SETUSER", "alice", "nopass", "~cache:*", "+@read"] ∧
    ["ACL", "SETUSER", "alice", "nopass", "~cache:*", "+@read"].get? 3 ≠ some "off" ∧
    "off" ∉ ["ACL", "SETUSER", "alice", "nopass", "~cache:*", "+@read"].drop 3 :=
  ⟨rfl, by decide,
    ((disabled_user_sends_no_off refusingServer freshClient disabledConfig rfl).1 _
      (by decide)).2.2.1,
    ((disabled_user_sends_no_off refusingServer freshClient disabledConfig rfl).1 _
      (by decide)).2.2.2.1⟩

/-- C2 (the code departs from the claim): for a declared user with
`enabled = true` none of whose keys, commands and channels is the empty string,
the command that `updateUserACL` sends is exactly `ACL SETUSER username on P`
followed by the reset tokens whose flag is true, the key tokens, the command
tokens and the channel tokens, each token list being the declared list mapped
in order (same length); it is the first round trip `updateUserACL` makes, and
the only `ACL SETUSER`: what follows are the `ACL GETUSER` and `ACL LIST` of
Read. But when one of the declared keys, commands or channels is the empty
string, the unchecked type assertion of the element loop panics: no command is
built, nothing is sent and `updateUserACL` does not return. -/
theorem updateUserACL_command_enabled {σ : Type} (srv : Server σ) (c : Client σ)
    (d : ResourceData) (h : d.enabled = true) :
    (("" ∉ d.keys ∧ "" ∉ d.commands ∧ "" ∉ d.channels) →
      setUserArgs d = some
        (["ACL", "SETUSER", d.username, "on",
            if d.password ≠ "" then ">" ++ d.password else "nopass"]
          ++ ((if d.reset_keys then ["resetkeys"] else [])
              ++ (if d.reset_channels then ["resetchannels"] else [])
              ++ (if d.reset_commands then ["resetcommands"] else []))
          ++ d.keys.map keyToken ++ d.commands.map commandToken
          ++ d.channels.map channelToken) ∧
      (d.keys.map keyToken).length = d.keys.length ∧
      (d.commands.map commandToken).length = d.commands.length ∧
      (d.channels.map channelToken).length = d.channels.length ∧
      ∃ args rest, setUserArgs d = some args ∧
        issued c (updateUserACL srv c d).client
          = ⟨args, (srv.exec c.state args).1⟩ :: rest ∧
        ∀ x ∈ rest, x.cmd = ["ACL", "GETUSER", d.id] ∨ x.cmd = ["ACL", "LIST"]) ∧
    (("" ∈ d.keys ∨ "" ∈ d.commands ∨ "" ∈ d.channels) →
      setUserArgs d = none ∧
      (updateUserACL srv c d).result = none ∧
      issued c (updateUserACL srv c d).client = []) := by
  constructor
  · intro hne
    have hcond : ¬ ("" ∈ d.keys ∨ "" ∈ d.commands ∨ "" ∈ d.channels) := by
      rintro (hk | hk | hk)
      · exact hne.1 hk
      · exact hne.2.1 hk
      · exact hne.2.2 hk
    have ha : setUserArgs d = some
        (["ACL", "SETUSER", d.username, "on",
            if d.password ≠ "" then ">" ++ d.password else "nopass"]
          ++ ((if d.reset_keys then ["resetkeys"] else [])
              ++ (if d.reset_channels then ["resetchannels"] else [])
              ++ (if d.reset_commands then ["resetcommands"] else []))
          ++ d.keys.map keyToken ++ d.commands.map commandToken
          ++ d.channels.map channelToken) := by
      rw [setUserArgs_eq, h]
      simp only [hcond, if_false, if_true]
      simp
    refine ⟨ha, by simp, by simp, by simp, ?_⟩
    obtain ⟨rest, hi, hl⟩ := update_issued srv c d _ ha
    exact ⟨_, rest, ha, hi, hl⟩
  · intro hmem
    have ha : setUserArgs d = none := (setUserArgs_none_iff d).mpr hmem
    refine ⟨ha, ?_, update_issued_none srv c d ha⟩
    rw [update_of_none srv c d ha]

/-- C2 on the declared state of `testAccRedisUserConfig_full`, and on a
declared user whose keys are `a` and the empty string: no command is sent. -/
theorem updateUserACL_command_enabled_witness :
    fullConfig.enabled = true ∧
    setUserArgs fullConfig = some
      ["ACL", "SETUSER", "testuser", "on", ">testpassword", "resetkeys", "resetchannels",
        "resetcommands", "~test:*", "~cache:*", "+@read", "+@write", "-@dangerous",
        "&news:*", "&events:*"] ∧
    emptyKeyConfig.enabled = true ∧ emptyKeyConfig.keys = ["a", ""] ∧
    setUserArgs emptyKeyConfig = none ∧
    (updateUserACL refusingServer freshClient emptyKeyConfig).result = none ∧
    issued freshClient (updateUserACL refusingServer freshClient emptyKeyConfig).client = [] :=
  ⟨rfl,
    ((updateUserACL_command_enabled refusingServer freshClient fullConfig rfl).1
      (by decide)).1.trans (by decide),
    rfl, rfl,
    ((updateUserACL_command_enabled refusingServer freshClient emptyKeyConfig rfl).2
      (by decide)).1,
    ((updateUserACL_command_enabled refusingServer freshClient emptyKeyConfig rfl).2
      (by decide)).2.1,
    ((updateUserACL_command_enabled refusingServer freshClient emptyKeyConfig rfl).2
      (by decide)).2.2⟩

/-- C3: the command normalization of `updateUserACL` returns a rule that starts
with `+` or `-` unchanged, and puts `+` in front of every other rule, whether
it starts with `@` or not; `@read` becomes `+@read`, `write` becomes `+write`,
`-@dangerous` stays as it is. -/
theorem commandToken_spec (t : String) :
    commandToken t =
      (if HasPrefix t "+" || HasPrefix t "-" then t
       else if HasPrefix t "@" then "+" ++ t
       else "+" ++ t) ∧
    commandToken "@read" = "+@read" ∧ commandToken "write" = "+write" ∧
    commandToken "-@dangerous" = "-@dangerous" :=
  ⟨commandToken_cases t, by decide, by decide, by decide⟩

/-- C4: the three normalizations of `updateUserACL` are idempotent; a token
that already carries its prefix is returned unchanged; `cache:*` normalizes as
a key to `~cache:*`. -/
theorem normalization_idempotent (t : String) :
    keyToken (keyToken t) = keyToken t ∧
    commandToken (commandToken t) = commandToken t ∧
    channelToken (channelToken t) = channelToken t ∧
    keyToken ("~" ++ t) = "~" ++ t ∧
    commandToken ("+" ++ t) = "+" ++ t ∧
    commandToken ("-" ++ t) = "-" ++ t ∧
    channelToken ("&" ++ t) = "&" ++ t ∧
    keyToken "cache:*" = "~cache:*" := by
  refine ⟨keyToken_idem t, commandToken_idem t, channelToken_idem t, ?_, ?_, ?_, ?_, by decide⟩
  · rw [keyToken_cases]
    have := HasPrefix_append_one '~' t
    simp only [show ("~" : String) = String.mk ['~'] from rfl, this, if_true]
  · rw [commandToken_cases]
    have := HasPrefix_append_one '+' t
    simp only [show ("+" : String) = String.mk ['+'] from rfl, this, Bool.true_or, if_true]
  · rw [commandToken_cases]
    have := HasPrefix_append_one '-' t
    simp only [show ("-" : String) = String.mk ['-'] from rfl, this, Bool.or_true, if_true]
  · rw [channelToken_cases]
    have := HasPrefix_append_one '&' t
    simp only [show ("&" : String) = String.mk ['&'] from rfl, this, if_true]

/-- C5: `resourceRedisUserDelete` on the identity `default` returns the error
`Cannot delete the 'default' user`, makes no round trip (client handle, hence
trace and server state, unchanged) and leaves the declared state, identity
included, unchanged; on every other identity it makes exactly one round trip,
the command `ACL DELUSER <identity>`. -/
theorem delete_default_refused {σ : Type} (srv : Server σ) (c : Client σ) (d : ResourceData) :
    (d.id = "default" →
      (resourceRedisUserDelete srv c d).result
          = some (diag.Errorf "Cannot delete the 'default' user") ∧
        (resourceRedisUserDelete srv c d).result ≠ some [] ∧
        (resourceRedisUserDelete srv c d).client = c ∧
        issued c (resourceRedisUserDelete srv c d).client = [] ∧
        (resourceRedisUserDelete srv c d).data = d) ∧
    (d.id ≠ "default" →
      issued c (resourceRedisUserDelete srv c d).client
        = [⟨["ACL", "DELUSER", d.id], (srv.exec c.state ["ACL", "DELUSER", d.id]).1⟩]) := by
  constructor
  · intro hd
    have hr : resourceRedisUserDelete srv c d
        = ⟨some (diag.Errorf "Cannot delete the 'default' user"), c, d⟩ := by
      unfold resourceRedisUserDelete
      simp only [hd, if_true]
    rw [hr]
    exact ⟨rfl, by simp [diag.Errorf], rfl, issued_self c, rfl⟩
  · intro hd
    unfold resourceRedisUserDelete
    simp only [hd, if_false, Client.Do]
    split <;> simp only [issued_one]

/-- C5 at concrete inputs: deleting `default` on a fresh client leaves the
trace empty; deleting `testuser` sends `ACL DELUSER testuser`. -/
theorem delete_default_refused_witness :
    (resourceRedisUserDelete refusingServer freshClient
        { updateConfig with id := "default" }).client.trace = [] ∧
    (issued freshClient (resourceRedisUserDelete refusingServer freshClient
        updateConfig).client).map Exchange.cmd = [["ACL", "DELUSER", "testuser"]] :=
  ⟨congrArg Client.trace
      ((delete_default_refused refusingServer freshClient
        { updateConfig with id := "default" }).1 rfl).2.2.1,
    congrArg (List.map Exchange.cmd)
      ((delete_default_refused refusingServer freshClient updateConfig).2 (by decide))⟩

theorem scanPatterns_strs (pre : String) :
    ∀ (l : List String) (acc : List String),
      scanPatterns pre (l.map Reply.str) acc = acc ++ l.map (stripToken pre)
  | [], acc => by simp [scanPatterns]
  | p :: rest, acc => by
    simp only [List.map_cons, scanPatterns, scanPatterns_strs pre rest, List.append_assoc,
      List.singleton_append]

theorem map_eq_self_iff {α : Type} (f : α → α) :
    ∀ l : List α, l.map f = l ↔ ∀ a ∈ l, f a = a
  | [] => by simp
  | a :: l => by
    simp only [List.map_cons, List.cons.injEq, map_eq_self_iff f l, List.mem_cons,
      forall_eq_or_imp]

theorem strip_keyToken_iff (p : String) :
    stripToken "~" (keyToken p) = p ↔ HasPrefix p "~" = false := by
  rw [keyToken_cases]
  cases h : HasPrefix p "~"
  · simp only [Bool.false_eq_true, if_false, iff_true]
    exact stripToken_append_one '~' p
  · simp only [if_true, Bool.true_eq_false, iff_false]
    exact stripToken_ne '~' p h

theorem strip_channelToken_iff (p : String) :
    stripToken "&" (channelToken p) = p ↔ HasPrefix p "&" = false := by
  rw [channelToken_cases]
  cases h : HasPrefix p "&"
  · simp only [Bool.false_eq_true, if_false, iff_true]
    exact stripToken_append_one '&' p
  · simp only [if_true, Bool.true_eq_false, iff_false]
    exact stripToken_ne '&' p h

/-- C6 as stated fails: the declared key pattern `~cache:*` is sent unchanged
and Read reports it as `cache:*`, not as declared. -/
theorem read_strips_declared_pattern :
    keyToken "~cache:*" = "~cache:*" ∧
    stripToken "~" (keyToken "~cache:*") = "cache:*" ∧
    stripToken "~" (keyToken "~cache:*") ≠ "~cache:*" ∧
    scanPatterns "~" ([keyToken "~cache:*"].map Reply.str) [] ≠ ["~cache:*"] ∧
    stripToken "&" (channelToken "&news:*") ≠ "&news:*" := by
  decide

theorem scanACLList_lists (username : String) :
    ∀ (lines : List String) (d : ResourceData),
      (scanACLList lines username d).keys = d.keys ∧
      (scanACLList lines username d).channels = d.channels
  | [], _ => ⟨rfl, rfl⟩
  | l :: rest, d => by
    have ih := scanACLList_lists username rest d
    unfold scanACLList
    split
    · split
      · exact ⟨rfl, rfl⟩
      · exact ih
    · exact ih

theorem applyField_other_lists (name : String) (h1 : name ≠ "keys") (h2 : name ≠ "channels")
    (v : Reply) (f : Fields) :
    (applyField name v f).keys = f.keys ∧ (applyField name v f).channels = f.channels := by
  unfold applyField
  simp only [h1, h2, if_false]
  split
  · cases v <;> exact ⟨rfl, rfl⟩
  · split
    · cases v <;> exact ⟨rfl, rfl⟩
    · exact ⟨rfl, rfl⟩

theorem applyField_keys_lists (K : List String) (f : Fields) :
    (applyField "keys" (.arr (K.map Reply.str)) f).keys = f.keys ++ K.map (stripToken "~") ∧
    (applyField "keys" (.arr (K.map Reply.str)) f).channels = f.channels := by
  simp [applyField, scanPatterns_strs]

theorem applyField_channels_lists (H : List String) (f : Fields) :
    (applyField "channels" (.arr (H.map Reply.str)) f).keys = f.keys ∧
    (applyField "channels" (.arr (H.map Reply.str)) f).channels
      = f.channels ++ H.map (stripToken "&") := by
  simp [applyField, scanPatterns_strs]

theorem scanFields_echo (fl pw cm : Reply) (K H : List String) :
    ∃ f, scanFields [.str "flags", fl, .str "passwords", pw, .str "commands", cm,
        .str "keys", .arr (K.map Reply.str), .str "channels", .arr (H.map Reply.str)]
        ⟨true, [], [], []⟩ = some f ∧
      f.keys = K.map (stripToken "~") ∧ f.channels = H.map (stripToken "&") := by
  refine ⟨_, rfl, ?_, ?_⟩
  · rw [(applyField_channels_lists H _).1, (applyField_keys_lists K _).1,
      (applyField_other_lists "commands" (by decide) (by decide) cm _).1,
      (applyField_other_lists "passwords" (by decide) (by decide) pw _).1,
      (applyField_other_lists "flags" (by decide) (by decide) fl _).1]
    rfl
  · rw [(applyField_channels_lists H _).2, (applyField_keys_lists K _).2,
      (applyField_other_lists "commands" (by decide) (by decide) cm _).2,
      (applyField_other_lists "passwords" (by decide) (by decide) pw _).2,
      (applyField_other_lists "flags" (by decide) (by decide) fl _).2]
    rfl

theorem Read_echo {σ : Type} (srv : Server σ) (c : Client σ) (d : ResourceData)
    (fl pw cm : Reply) (K H : List String)
    (hget : (srv.exec c.state ["ACL", "GETUSER", d.id]).1
      = .ok (.arr [.str "flags", fl, .str "passwords", pw, .str "commands", cm,
          .str "keys", .arr (K.map Reply.str), .str "channels", .arr (H.map Reply.str)])) :
    (resourceRedisUserRead srv c d).result.isSome = true ∧
    (resourceRedisUserRead srv c d).data.keys = K.map (stripToken "~") ∧
    (resourceRedisUserRead srv c d).data.channels = H.map (stripToken "&") := by
  obtain ⟨f, hf, hk, hh⟩ := scanFields_echo fl pw cm K H
  unfold resourceRedisUserRead
  simp only [Client.Do, hget, Reply.Slice, hf]
  split
  · exact ⟨rfl, hk, hh⟩
  · rename_i ss _
    have := scanACLList_lists d.id ss
      { id := d.id, username := d.id, password := d.password, enabled := f.enabled,
        keys := f.keys, commands := f.commands, channels := f.channels,
        reset_keys := d.reset_keys, reset_channels := d.reset_channels,
        reset_commands := d.reset_commands, acl_string := d.acl_string }
    exact ⟨rfl, this.1.trans hk, this.2.trans hh⟩

/-- C6 amended: for a declared user for whom `updateUserACL` builds its command
(none of the declared keys, commands and channels is the empty string), when
that `ACL SETUSER` succeeds and the `ACL GETUSER` reply of the Read that follows
echoes, in its `keys` and `channels` fields, the key and channel tokens that
were sent: the command ends with the tokens of the declared lists,
`updateUserACL` returns, and Read reports every declared key pattern with one
leading `~` removed if it had one (channel pattern: `&`). So the keys list
reported equals the declared one exactly when no declared key pattern starts
with `~`, and the channels list exactly when no declared channel pattern starts
with `&`. -/
theorem strip_normalize_roundtrip {σ : Type} (srv : Server σ) (c : Client σ)
    (d : ResourceData) (args : List String) (v fl pw cm : Reply)
    (ha : setUserArgs d = some args)
    (hset : (srv.exec c.state args).1 = .ok v)
    (hget : (srv.exec (c.Do srv args).2.state ["ACL", "GETUSER", d.id]).1
      = .ok (.arr [.str "flags", fl, .str "passwords", pw, .str "commands", cm,
          .str "keys", .arr ((d.keys.map keyToken).map Reply.str),
          .str "channels", .arr ((d.channels.map channelToken).map Reply.str)])) :
    (∃ front, args = front ++ d.keys.map keyToken ++ d.commands.map commandToken
        ++ d.channels.map channelToken) ∧
    (updateUserACL srv c d).result.isSome = true ∧
    (updateUserACL srv c d).data.keys
      = d.keys.map (fun p => stripToken "~" (keyToken p)) ∧
    (updateUserACL srv c d).data.channels
      = d.channels.map (fun p => stripToken "&" (channelToken p)) ∧
    ((updateUserACL srv c d).data.keys = d.keys ↔ ∀ k ∈ d.keys, HasPrefix k "~" = false) ∧
    ((updateUserACL srv c d).data.channels = d.channels
      ↔ ∀ k ∈ d.channels, HasPrefix k "&" = false) := by
  have hfront : ∃ front, args = front ++ d.keys.map keyToken ++ d.commands.map commandToken
      ++ d.channels.map channelToken := by
    rw [setUserArgs_eq] at ha
    split at ha
    · exact Option.noConfusion ha
    · exact ⟨_, (Option.some.inj ha).symm⟩
  obtain ⟨hres, hk, hh⟩ := Read_echo srv (c.Do srv args).2 d fl pw cm
    (d.keys.map keyToken) (d.channels.map channelToken) hget
  rw [update_of_ok srv c d args ha v hset]
  rw [List.map_map] at hk hh
  refine ⟨hfront, hres, hk, hh, ?_, ?_⟩
  · rw [hk, map_eq_self_iff]
    exact forall₂_congr (fun k _ => strip_keyToken_iff k)
  · rw [hh, map_eq_self_iff]
    exact forall₂_congr (fun k _ => strip_channelToken_iff k)

/-- C6 amended, on the declared state of `testAccRedisUserConfig_update` and a
server echoing its tokens: Read reports `test:*`, `cache:*` and `news:*`. -/
theorem strip_normalize_roundtrip_witness :
    (updateUserACL
        (scriptedServer
          (.arr [.str "flags", .arr [.str "on"], .str "passwords", .arr [],
            .str "commands", .str "+@read +@write",
            .str "keys", .arr [.str "~test:*", .str "~cache:*"],
            .str "channels", .arr [.str "&news:*"]])
          (.arr []))
        freshClient updateConfig).data.keys = ["test:*", "cache:*"] ∧
    (updateUserACL
        (scriptedServer
          (.arr [.str "flags", .arr [.str "on"], .str "passwords", .arr [],
            .str "commands", .str "+@read +@write",
            .str "keys", .arr [.str "~test:*", .str "~cache:*"],
            .str "channels", .arr [.str "&news:*"]])
          (.arr []))
        freshClient updateConfig).data.channels = ["news:*"] :=
  ⟨(strip_normalize_roundtrip _ freshClient updateConfig
      ["ACL", "SETUSER", "testuser", "on", ">updatedpassword", "~test:*", "~cache:*",
        "+@read", "+@write", "&news:*"]
      (.str "OK") (.arr [.str "on"]) (.arr []) (.str "+@read +@write")
      (by decide) rfl rfl).2.2.1.trans (by decide),
    (strip_normalize_roundtrip _ freshClient updateConfig
      ["ACL", "SETUSER", "testuser", "on", ">updatedpassword", "~test:*", "~cache:*",
        "+@read", "+@write", "&news:*"]
      (.str "OK") (.arr [.str "on"]) (.arr []) (.str "+@read +@write")
      (by decide) rfl rfl).2.2.2.1.trans (by decide)⟩

/-- C7 (the code departs from the claim): when the `commands` field of the
`ACL GETUSER` reply is the single string made of the rules joined by spaces,
the field loop appends that whole string as ONE entry, whatever the number of
rules; for the rules `+@read`, `+@write` of the update test, Read reports the
one-entry list `["+@read +@write"]`, not the two entries the test expects. -/
theorem read_commands_one_entry (rules : List String) (f : Fields) :
    scanFields [.str "commands", .str (" ".intercalate rules)] f
      = some { f with commands := f.commands ++ [" ".intercalate rules] } ∧
    " ".intercalate ["+@read", "+@write"] = "+@read +@write" ∧
    (resourceRedisUserRead
        (scriptedServer (.arr [.str "commands", .str "+@read +@write"]) (.arr []))
        freshClient updateConfig).result = some [] ∧
    (resourceRedisUserRead
        (scriptedServer (.arr [.str "commands", .str "+@read +@write"]) (.arr []))
        freshClient updateConfig).data.commands = ["+@read +@write"] ∧
    (resourceRedisUserRead
        (scriptedServer (.arr [.str "commands", .str "+@read +@write"]) (.arr []))
        freshClient updateConfig).data.commands ≠ ["+@read", "+@write"] := by
  refine ⟨?_, by decide, by decide, by decide, by decide⟩
  simp [scanFields, applyField]

/-- C9 (the code departs from the claim): on a reply slice of odd length whose
last element is one of the field names `flags`, `keys`, `channels`, `commands`,
the field loop evaluates `aclInfoSlice[i+1]` past the end of the slice: the
loop does not return (index out of range). -/
theorem scanFields_odd_length_panics (pairs : List Reply) (name : String) (f : Fields)
    (hlen : pairs.length % 2 = 0) (hname : readsValue name = true) :
    scanFields (pairs ++ [.str name]) f = none :=
  scanFields_odd_none name hname pairs f hlen

/-- C9 at the reply `["flags"]`: the loop, and with it Read, does not return. -/
theorem scanFields_odd_length_panics_witness :
    ([] : List Reply).length % 2 = 0 ∧ readsValue "flags" = true ∧
    scanFields ([] ++ [.str "flags"]) ⟨true, [], [], []⟩ = none ∧
    (resourceRedisUserRead (scriptedServer (.arr [.str "flags"]) (.arr []))
        freshClient updateConfig).result = none :=
  ⟨rfl, by decide, scanFields_odd_length_panics [] "flags" _ rfl (by decide), by decide⟩

/-- C10 (the code departs from the claim): when every line of the `ACL LIST`
reply has the server's format, starting with the word `user` and a space, the
first space-delimited token of every line is `user`, so for every username
other than `user` the scan matches no line and leaves `acl_string` (and the
rest of the declared state) as it was. -/
theorem scanACLList_never_matches (lines : List String) (username : String) (d : ResourceData)
    (hu : username ≠ "user") (hl : ∀ l ∈ lines, HasPrefix l "user " = true) :
    scanACLList lines username d = d :=
  scanACLList_user_unchanged username hu d lines hl

/-- C10 at user `testuser`: its line is in the reply, yet `acl_string` is not
set, neither by the scan nor by a successful Read. -/
theorem scanACLList_never_matches_witness :
    scanACLList ["user default on nopass ~* &* +@all", "user testuser on #9f86 ~test:* +@read"]
        "testuser" updateConfig = updateConfig ∧
    (resourceRedisUserRead
        (scriptedServer (.arr [.str "flags", .arr [.str "on"]])
          (.arr [.str "user default on nopass ~* &* +@all",
                 .str "user testuser on #9f86 ~test:* +@read"]))
        freshClient updateConfig).result = some [] ∧
    (resourceRedisUserRead
        (scriptedServer (.arr [.str "flags", .arr [.str "on"]])
          (.arr [.str "user default on nopass ~* &* +@all",
                 .str "user testuser on #9f86 ~test:* +@read"]))
        freshClient updateConfig).data.acl_string = "" :=
  ⟨scanACLList_never_matches _ "testuser" updateConfig (by decide) (by decide),
    by decide, by decide⟩

/-- C8 as stated fails: with a server that answers every command with the
error `NOPERM`, Import reports `Redis user 'testuser' not found` and
`updateUserACL` reports `Failed to update Redis user 'testuser': NOPERM`;
neither message is the server's message unchanged. -/
theorem server_error_not_verbatim :
    issued freshClient (resourceRedisUserImport refusingServer freshClient updateConfig).client
      = [⟨["ACL", "GETUSER", "testuser"], .error "NOPERM"⟩] ∧
    (resourceRedisUserImport refusingServer freshClient updateConfig).result
      = .error "Redis user 'testuser' not found" ∧
    (resourceRedisUserImport refusingServer freshClient updateConfig).result
      ≠ .error "NOPERM" ∧
    issued freshClient (updateUserACL refusingServer freshClient updateConfig).client
      = [⟨["ACL", "SETUSER", "testuser", "on", ">updatedpassword", "~test:*", "~cache:*",
            "+@read", "+@write", "&news:*"], .error "NOPERM"⟩] ∧
    (updateUserACL refusingServer freshClient updateConfig).result
      = some (diag.Errorf "Failed to update Redis user 'testuser': NOPERM") ∧
    (updateUserACL refusingServer freshClient updateConfig).result
      ≠ some (diag.FromErr "NOPERM") := by
  refine ⟨rfl, rfl, ?_, rfl, by decide, by decide⟩
  intro h
  have h2 : (Except.error "Redis user 'testuser' not found" : Except String (List ResourceData))
      = .error "NOPERM" := h
  exact absurd (Except.error.inj h2) (by decide)

/-- C8 amended: whenever a round trip `x` made by a user-resource operation
returns an error `e`, the operation fails, and the message it reports is
* `e` unchanged when `x` is the `ACL GETUSER` or `ACL LIST` of Read (also when
  Read runs inside Update or Create), the `ACL LIST` of Create or Import, or
  the `ACL DELUSER` of Delete, except that an `ACL GETUSER` error containing
  `User not found` is not a failure of Read;
* `Failed to update Redis user '<username>': e` when `x` is the `ACL SETUSER`
  of `updateUserACL` (Update and Create);
* `Failed to create Redis user '<username>': e` when `x` is the bare
  `ACL SETUSER <username>` of Create;
* `Redis user '<identity>' not found`, without `e`, when `x` is the
  `ACL GETUSER` of Import. -/
theorem server_error_reporting {σ : Type} (srv : Server σ) (c : Client σ) (d : ResourceData)
    (x : Exchange) (e : String) (he : x.result = .error e) :
    (x ∈ issued c (resourceRedisUserRead srv c d).client →
      ¬ (x.cmd = ["ACL", "GETUSER", d.id] ∧ Contains e "User not found" = true) →
      (resourceRedisUserRead srv c d).result = some (diag.FromErr e)) ∧
    (x ∈ issued c (resourceRedisUserDelete srv c d).client →
      (resourceRedisUserDelete srv c d).result = some (diag.FromErr e)) ∧
    (x ∈ issued c (resourceRedisUserUpdate srv c d).client →
      (setUserArgs d = some x.cmd → (resourceRedisUserUpdate srv c d).result
        = some (diag.Errorf ("Failed to update Redis user '" ++ d.username ++ "': " ++ e))) ∧
      (setUserArgs d ≠ some x.cmd →
        ¬ (x.cmd = ["ACL", "GETUSER", d.id] ∧ Contains e "User not found" = true) →
        (resourceRedisUserUpdate srv c d).result = some (diag.FromErr e))) ∧
    (x ∈ issued c (resourceRedisUserCreate srv c d).client →
      (x.cmd = ["ACL", "SETUSER", d.username] → (resourceRedisUserCreate srv c d).result
        = some (diag.Errorf ("Failed to create Redis user '" ++ d.username ++ "': " ++ e))) ∧
      (setUserArgs d = some x.cmd → (resourceRedisUserCreate srv c d).result
        = some (diag.Errorf ("Failed to update Redis user '" ++ d.username ++ "': " ++ e))) ∧
      (x.cmd ≠ ["ACL", "SETUSER", d.username] → setUserArgs d ≠ some x.cmd →
        ¬ (x.cmd = ["ACL", "GETUSER", d.username] ∧ Contains e "User not found" = true) →
        (resourceRedisUserCreate srv c d).result = some (diag.FromErr e))) ∧
    (x ∈ issued c (resourceRedisUserImport srv c d).client →
      (x.cmd = ["ACL", "GETUSER", d.id] → (resourceRedisUserImport srv c d).result
        = .error ("Redis user '" ++ d.id ++ "' not found")) ∧
      (x.cmd ≠ ["ACL", "GETUSER", d.id] →
        (resourceRedisUserImport srv c d).result = .error e)) :=
  ⟨fun hx hn => Read_error_reported srv c d x e hx he hn,
    fun hx => delete_error_reported srv c d x e hx he,
    fun hx => update_error_reported srv c d x e hx he,
    fun hx => create_error_reported srv c d x e hx he,
    fun hx => import_error_reported srv c d x e hx he⟩

/-- C8 amended, on a server that refuses every command with `NOPERM`: Delete
reports `NOPERM` unchanged, Read reports `NOPERM` unchanged, Update wraps it. -/
theorem server_error_reporting_witness :
    (resourceRedisUserDelete refusingServer freshClient updateConfig).result
      = some (diag.FromErr "NOPERM") ∧
    (resourceRedisUserRead refusingServer freshClient updateConfig).result
      = some (diag.FromErr "NOPERM") ∧
    (resourceRedisUserUpdate refusingServer freshClient updateConfig).result
      = some (diag.Errorf ("Failed to update Redis user '" ++ "testuser" ++ "': " ++ "NOPERM")) :=
  ⟨(server_error_reporting refusingServer freshClient updateConfig
      ⟨["ACL", "DELUSER", "testuser"], .error "NOPERM"⟩ "NOPERM" rfl).2.1
      (List.mem_singleton.mpr rfl),
    (server_error_reporting refusingServer freshClient updateConfig
      ⟨["ACL", "GETUSER", "testuser"], .error "NOPERM"⟩ "NOPERM" rfl).1
      (List.mem_singleton.mpr rfl) (by decide),
    ((server_error_reporting refusingServer freshClient updateConfig
      ⟨["ACL", "SETUSER", "testuser", "on", ">updatedpassword", "~test:*", "~cache:*",
        "+@read", "+@write", "&news:*"], .error "NOPERM"⟩ "NOPERM" rfl).2.2.1
      (List.mem_singleton.mpr rfl)).1 (by decide)⟩

/-! ## Read of an unknown user, and the string resource -/

theorem containsChars_append_left (sub b : List Char) (h : containsChars sub b = true) :
    ∀ a : List Char, containsChars sub (a ++ b) = true
  | [] => h
  | x :: a => by
    have ih := containsChars_append_left sub b h a
    show (sub.isPrefixOf (x :: (a ++ b)) || containsChars sub (a ++ b)) = true
    rw [ih, Bool.or_true]

theorem alreadyExistsMessage_contains (key : String) :
    Contains (alreadyExistsMessage key) "already exists" = true := by
  unfold Contains alreadyExistsMessage
  simp only [String.data_append, List.append_assoc]
  apply containsChars_append_left
  apply containsChars_append_left
  decide

theorem storeServer_exists (s : Store) (key : String) :
    storeServer.exec s ["EXISTS", key] = (.ok (.int (if (s key).isSome then 1 else 0)), s) := by
  simp [storeServer]

theorem storeServer_set (s : Store) (key value : String) :
    storeServer.exec s ["SET", key, value] = (.ok (.str "OK"), s.set key value) := by
  simp [storeServer]

theorem storeServer_get_some (s : Store) (key v : String) (h : s key = some v) :
    storeServer.exec s ["GET", key] = (.ok (.str v), s) := by
  simp [storeServer, h]

theorem Store.set_same (s : Store) (key value : String) : s.set key value key = some value := by
  simp [Store.set]

theorem string_read_present (c : Client Store) (d : StringData) (v : String)
    (h : c.state d.id = some v) :
    resourceRedisStringRead storeServer c d
      = ⟨[], ⟨c.state, c.trace ++ [⟨["GET", d.id], .ok (.str v)⟩]⟩,
          { d with key := d.id, value := v }⟩ := by
  unfold resourceRedisStringRead
  simp only [Client.Do, storeServer_get_some c.state d.id v h]

theorem string_create_refused (c : Client Store) (d : StringData)
    (hk : (c.state d.key).isSome = true) (ho : d.overridable = false) :
    resourceRedisStringCreate storeServer c d
      = ⟨diag.Errorf (alreadyExistsMessage d.key),
          ⟨c.state, c.trace ++ [⟨["EXISTS", d.key], .ok (.int 1)⟩]⟩, d⟩ := by
  unfold resourceRedisStringCreate
  simp only [Client.Do, storeServer_exists, hk, ho, if_true]
  rfl

theorem string_create_written (c : Client Store) (d : StringData)
    (h : ¬ ((c.state d.key).isSome = true ∧ d.overridable = false)) :
    resourceRedisStringCreate storeServer c d
      = ⟨[], ⟨c.state.set d.key d.value,
            c.trace ++ [⟨["EXISTS", d.key], .ok (.int (if (c.state d.key).isSome then 1 else 0))⟩]
              ++ [⟨["SET", d.key, d.value], .ok (.str "OK")⟩]
              ++ [⟨["GET", d.key], .ok (.str d.value)⟩]⟩,
          { d with id := d.key, key := d.key, value := d.value }⟩ := by
  have hcond : ((if (c.state d.key).isSome = true then (1 : Int) else 0) > 0
      && !d.overridable) = false := by
    cases hs : (c.state d.key).isSome <;> cases ho : d.overridable <;> simp_all
  unfold resourceRedisStringCreate
  simp only [Client.Do, storeServer_exists, storeServer_set, hcond, Bool.false_eq_true, if_false]
  rw [string_read_present _ _ d.value (Store.set_same _ _ _)]

/-- C11: when `ACL GETUSER` of the identity returns an error whose message
contains `User not found`, `resourceRedisUserRead` returns no error, sets the
identity to the empty string, makes no further round trip (the `ACL GETUSER` is
the only one: no `ACL LIST`), and leaves every declared field as it was. -/
theorem read_unknown_user_clears_identity {σ : Type} (srv : Server σ) (c : Client σ)
    (d : ResourceData) (e : String)
    (hg : (srv.exec c.state ["ACL", "GETUSER", d.id]).1 = .error e)
    (hc : Contains e "User not found" = true) :
    (resourceRedisUserRead srv c d).result = some [] ∧
    (resourceRedisUserRead srv c d).data.id = "" ∧
    issued c (resourceRedisUserRead srv c d).client
      = [⟨["ACL", "GETUSER", d.id], .error e⟩] ∧
    (∀ x ∈ issued c (resourceRedisUserRead srv c d).client, x.cmd ≠ ["ACL", "LIST"]) ∧
    (resourceRedisUserRead srv c d).data = { d with id := "" } ∧
    (resourceRedisUserRead srv c d).data.username = d.username ∧
    (resourceRedisUserRead srv c d).data.password = d.password ∧
    (resourceRedisUserRead srv c d).data.enabled = d.enabled ∧
    (resourceRedisUserRead srv c d).data.keys = d.keys ∧
    (resourceRedisUserRead srv c d).data.commands = d.commands ∧
    (resourceRedisUserRead srv c d).data.channels = d.channels ∧
    (resourceRedisUserRead srv c d).data.acl_string = d.acl_string := by
  have hr : resourceRedisUserRead srv c d
      = ⟨some [], (c.Do srv ["ACL", "GETUSER", d.id]).2, { d with id := "" }⟩ := by
    unfold resourceRedisUserRead
    simp only [Client.Do, hg, hc, if_true]
  rw [hr]
  have hi : issued c (c.Do srv ["ACL", "GETUSER", d.id]).2
      = [⟨["ACL", "GETUSER", d.id], .error e⟩] := by
    simp only [Client.Do, issued_one, hg]
  refine ⟨rfl, rfl, hi, ?_, rfl, rfl, rfl, rfl, rfl, rfl, rfl, rfl⟩
  intro x hx
  simp only [hi, List.mem_singleton] at hx
  subst hx
  simp

/-- C11 on a server that answers `ERR User not found`: Read of `testuser`
succeeds, clears the identity and sends only `ACL GETUSER testuser`. -/
theorem read_unknown_user_clears_identity_witness :
    Contains "ERR User not found" "User not found" = true ∧
    (resourceRedisUserRead unknownUserServer freshClient updateConfig).result = some [] ∧
    (resourceRedisUserRead unknownUserServer freshClient updateConfig).data.id = "" ∧
    issued freshClient (resourceRedisUserRead unknownUserServer freshClient updateConfig).client
      = [⟨["ACL", "GETUSER", "testuser"], .error "ERR User not found"⟩] :=
  ⟨by decide,
    (read_unknown_user_clears_identity unknownUserServer freshClient updateConfig
      "ERR User not found" rfl (by decide)).1,
    (read_unknown_user_clears_identity unknownUserServer freshClient updateConfig
      "ERR User not found" rfl (by decide)).2.1,
    (read_unknown_user_clears_identity unknownUserServer freshClient updateConfig
      "ERR User not found" rfl (by decide)).2.2.1⟩

/-- C12: on the key-value store, where every command succeeds, Create of the
string resource fails exactly when the key exists and `overridable` is false.
When it fails it reports exactly one diagnostic, whose summary contains
`already exists`, its only round trip is `EXISTS key`, and the store is left as
it was. When it succeeds its round trips are `EXISTS key`, `SET key value`,
`GET key` in that order, all answered without error, the store then holds the
value for the key, the declared state carries the key as identity and the
value, and a subsequent Read of that key, from whatever declared state `d2`
with that identity, succeeds, keeps the identity and reports the value just
written. -/
theorem string_create_guard (c : Client Store) (d d2 : StringData) :
    ((resourceRedisStringCreate storeServer c d).result ≠ [] ↔
      ((c.state d.key).isSome = true ∧ d.overridable = false)) ∧
    (((c.state d.key).isSome = true ∧ d.overridable = false) →
      (∃ msg, (resourceRedisStringCreate storeServer c d).result = [⟨.Error, msg⟩] ∧
        Contains msg "already exists" = true) ∧
      issued c (resourceRedisStringCreate storeServer c d).client
        = [⟨["EXISTS", d.key], .ok (.int 1)⟩] ∧
      (resourceRedisStringCreate storeServer c d).client.state = c.state ∧
      (resourceRedisStringCreate storeServer c d).client.state d.key = c.state d.key) ∧
    (¬ ((c.state d.key).isSome = true ∧ d.overridable = false) →
      (resourceRedisStringCreate storeServer c d).result = [] ∧
      (issued c (resourceRedisStringCreate storeServer c d).client).map Exchange.cmd
        = [["EXISTS", d.key], ["SET", d.key, d.value], ["GET", d.key]] ∧
      (∀ x ∈ issued c (resourceRedisStringCreate storeServer c d).client,
        ∃ v, x.result = .ok v) ∧
      (resourceRedisStringCreate storeServer c d).client.state d.key = some d.value ∧
      (resourceRedisStringCreate storeServer c d).data.id = d.key ∧
      (resourceRedisStringCreate storeServer c d).data.value = d.value ∧
      (d2.id = d.key →
        (resourceRedisStringRead storeServer
          (resourceRedisStringCreate storeServer c d).client d2).result = [] ∧
        (resourceRedisStringRead storeServer
          (resourceRedisStringCreate storeServer c d).client d2).data.id = d.key ∧
        (resourceRedisStringRead storeServer
          (resourceRedisStringCreate storeServer c d).client d2).data.value = d.value ∧
        (issued (resourceRedisStringCreate storeServer c d).client
          (resourceRedisStringRead storeServer
            (resourceRedisStringCreate storeServer c d).client d2).client)
          = [⟨["GET", d.key], .ok (.str d.value)⟩])) := by
  refine ⟨?_, ?_, ?_⟩
  · by_cases h : (c.state d.key).isSome = true ∧ d.overridable = false
    · rw [string_create_refused c d h.1 h.2]
      simp [h, diag.Errorf]
    · rw [string_create_written c d h]
      simp [h]
  · intro h
    rw [string_create_refused c d h.1 h.2]
    exact ⟨⟨_, rfl, alreadyExistsMessage_contains d.key⟩, issued_one _ _ _, rfl, rfl⟩
  · intro h
    rw [string_create_written c d h]
    have hi : issued c (⟨c.state.set d.key d.value,
        c.trace ++ [⟨["EXISTS", d.key], .ok (.int (if (c.state d.key).isSome then 1 else 0))⟩]
          ++ [⟨["SET", d.key, d.value], .ok (.str "OK")⟩]
          ++ [⟨["GET", d.key], .ok (.str d.value)⟩]⟩ : Client Store)
        = [⟨["EXISTS", d.key], .ok (.int (if (c.state d.key).isSome then 1 else 0))⟩,
           ⟨["SET", d.key, d.value], .ok (.str "OK")⟩,
           ⟨["GET", d.key], .ok (.str d.value)⟩] := by
      simp [issued]
    refine ⟨rfl, ?_, ?_, Store.set_same _ _ _, rfl, rfl, ?_⟩
    · simp only [hi, List.map_cons, List.map_nil]
    · intro x hx
      simp only [hi, List.mem_cons, List.mem_singleton, List.not_mem_nil, or_false] at hx
      rcases hx with hx | hx | hx <;> subst hx <;> exact ⟨_, rfl⟩
    · intro hid
      have hstate : (⟨c.state.set d.key d.value,
          c.trace ++ [⟨["EXISTS", d.key],
              .ok (.int (if (c.state d.key).isSome then 1 else 0))⟩]
            ++ [⟨["SET", d.key, d.value], .ok (.str "OK")⟩]
            ++ [⟨["GET", d.key], .ok (.str d.value)⟩]⟩ : Client Store).state d2.id
          = some d.value := by
        rw [hid]; exact Store.set_same _ _ _
      rw [string_read_present _ d2 d.value hstate]
      refine ⟨rfl, hid, rfl, ?_⟩
      rw [hid]
      exact issued_one _ _ _

/-- C12 on the store holding `test-key`: with `overridable = false` Create
fails after `EXISTS` alone and the stored value stays `old-value`; with
`overridable = true` it sends `EXISTS`, `SET`, `GET`, the store then holds
`test-value`, and a Read from a declared state that carries another value
reports `test-value`. -/
theorem string_create_guard_witness :
    (resourceRedisStringCreate storeServer ⟨oneKeyStore, []⟩ (stringConfig false)).result
      = diag.Errorf "Key 'test-key' already exists in Redis" ∧
    issued ⟨oneKeyStore, []⟩
        (resourceRedisStringCreate storeServer ⟨oneKeyStore, []⟩ (stringConfig false)).client
      = [⟨["EXISTS", "test-key"], .ok (.int 1)⟩] ∧
    (resourceRedisStringCreate storeServer ⟨oneKeyStore, []⟩ (stringConfig false)).client.state
        "test-key" = some "old-value" ∧
    (issued ⟨oneKeyStore, []⟩
        (resourceRedisStringCreate storeServer ⟨oneKeyStore, []⟩ (stringConfig true)).client).map
        Exchange.cmd
      = [["EXISTS", "test-key"], ["SET", "test-key", "test-value"], ["GET", "test-key"]] ∧
    (resourceRedisStringCreate storeServer ⟨oneKeyStore, []⟩ (stringConfig true)).client.state
        "test-key" = some "test-value" ∧
    (resourceRedisStringRead storeServer
        (resourceRedisStringCreate storeServer ⟨oneKeyStore, []⟩ (stringConfig true)).client
        ⟨"test-key", "test-key", "stale", false⟩).data.value = "test-value" :=
  ⟨by decide,
    ((string_create_guard ⟨oneKeyStore, []⟩ (stringConfig false) (stringConfig false)).2.1
      ⟨by decide, rfl⟩).2.1,
    ((string_create_guard ⟨oneKeyStore, []⟩ (stringConfig false) (stringConfig false)).2.1
      ⟨by decide, rfl⟩).2.2.2.trans (by decide),
    ((string_create_guard ⟨oneKeyStore, []⟩ (stringConfig true)
      ⟨"test-key", "test-key", "stale", false⟩).2.2 (by decide)).2.1,
    ((string_create_guard ⟨oneKeyStore, []⟩ (stringConfig true)
      ⟨"test-key", "test-key", "stale", false⟩).2.2 (by decide)).2.2.2.1,
    (((string_create_guard ⟨oneKeyStore, []⟩ (stringConfig true)
      ⟨"test-key", "test-key", "stale", false⟩).2.2 (by decide)).2.2.2.2.2.2 rfl).2.2.1⟩

end RedisProvider
